import Mathlib

/-!
# Verification of the rusty-chip8 CHIP-8 interpreter core

Shallow embedding of `src/chip8.rs` (struct `Chip8`, its helper methods and
`Chip8::cycle`) together with `src/errors.rs` (`EmulationError`).

Modelling conventions:
* Machine integers are `Nat` with explicit wrapping (`% 256` for `u8`
  arithmetic, `% 65536` for the `u16` program counter) exactly where the Rust
  code wraps (`overflowing_add`, `overflowing_sub`, `<<`, `+=`).
* `memory : [u8; 4096]`, `register : [u8; 16]`, `gfx : [bool; 2048]` and the
  keypad `[bool; 16]` are `List`s.  Indexing that can panic in Rust
  (memory accesses with an arbitrary `u16` index, `keypad[key]` with a full
  byte key, `Vec::pop().unwrap()`) is modelled with bounds checks returning
  `Option`/a `panic` outcome.  Register and gfx indexing in the source is
  always done with a masked value strictly below the fixed array length
  (nibble < 16, `% 2048`) and can never panic, so it is modelled with the
  total `List.getD` / `List.set`.
* `stack : Vec<u16>` with `push`/`pop` at the back is a LIFO; it is modelled
  as a list whose head is the top of the stack.
* The thread-local RNG used by opcode `0xCXNN` is modelled by an explicit
  `rand` input to `cycle` standing for the byte returned by `rng.gen()`.
* Debug-log strings: the source formats opcodes in hex into the log line
  before appending the per-branch text; the numeric formatting is elided and
  only the per-branch literal is kept (no claim inspects log contents, only
  the length and eviction behaviour of the deque).
-/

/-- `EmulationError` from `src/errors.rs`. -/
inductive EmulationError where
  | UnknownOpcode : Nat → EmulationError
  | UnknownInput : EmulationError
  | Quit : EmulationError
deriving DecidableEq, Repr

/-- The `Chip8` struct from `src/chip8.rs` (the `rng` field is externalised
as an input of `cycle`, see module comment). -/
structure Chip8 where
  op_code : Nat
  program_counter : Nat
  memory : List Nat
  register : List Nat
  memory_index : Nat
  gfx : List Bool
  delay_timer : Nat
  sound_timer : Nat
  stack : List Nat
  debug_enabled : Bool
  debug_log : List String
deriving DecidableEq, Repr

namespace Chip8

/-- `DEBUG_LOG_BUFFER_SIZE` in the source. -/
def DEBUG_LOG_BUFFER_SIZE : Nat := 50

/-- `Chip8::log` / `Chip8::log_str`: append an entry to the debug deque,
evicting the front entry first when the deque holds more than 50 entries;
a no-op unless `debug_enabled`. -/
def logAppend (s : Chip8) (entry : String) : Chip8 :=
  if s.debug_enabled then
    if DEBUG_LOG_BUFFER_SIZE < s.debug_log.length then
      { s with debug_log := s.debug_log.tail ++ [entry] }
    else
      { s with debug_log := s.debug_log ++ [entry] }
  else s

/-- `Chip8::read_op_code`: big-endian 16-bit fetch at the program counter.
`none` models the Rust index panic when the program counter leaves memory. -/
def read_op_code (s : Chip8) : Option Nat :=
  match s.memory[s.program_counter]?, s.memory[s.program_counter + 1]? with
  | some hi, some lo => some ((hi <<< 8) ||| lo)
  | _, _ => none

/-- `Chip8::read_vx`: the register selected by bits 8-11 of the opcode.
The index is a nibble, always within the 16-entry register file. -/
def read_vx (s : Chip8) : Nat :=
  s.register.getD ((s.op_code &&& 0x0F00) >>> 8) 0

/-- `Chip8::write_vx`. -/
def write_vx (s : Chip8) (value : Nat) : Chip8 :=
  { s with register := s.register.set ((s.op_code &&& 0x0F00) >>> 8) value }

/-- `Chip8::read_vy`: the register selected by bits 4-7 of the opcode. -/
def read_vy (s : Chip8) : Nat :=
  s.register.getD ((s.op_code &&& 0x00F0) >>> 4) 0

/-- `Chip8::write_vf`: register 15. -/
def write_vf (s : Chip8) (value : Nat) : Chip8 :=
  { s with register := s.register.set 0x0F value }

/-- `Chip8::set_program_counter`. -/
def set_program_counter (s : Chip8) (index : Nat) : Chip8 :=
  { s with program_counter := index }

/-- `Chip8::increase_program_counter`: `self.program_counter += 2` on `u16`. -/
def increase_program_counter (s : Chip8) : Chip8 :=
  { s with program_counter := (s.program_counter + 2) % 65536 }

/-- `Chip8::increase_program_counter_if`. -/
def increase_program_counter_if (s : Chip8) (condition : Bool) : Chip8 :=
  if condition then increase_program_counter s else s

/-- `Chip8::call_at`: push the current program counter, jump to `address`. -/
def call_at (s : Chip8) (address : Nat) : Chip8 :=
  { s with stack := s.program_counter :: s.stack, program_counter := address }

/-- Bounds-checked store into a byte list; `none` models the Rust panic on an
out-of-range index. -/
def memWrite (m : List Nat) (i v : Nat) : Option (List Nat) :=
  if i < m.length then some (m.set i v) else none

/-- `u8::overflowing_add` on byte operands. -/
def overflowing_add8 (a b : Nat) : Nat × Bool :=
  ((a + b) % 256, decide (255 < a + b))

/-- `u8::overflowing_sub` on byte operands: wrapping difference and the
borrow flag. -/
def overflowing_sub8 (a b : Nat) : Nat × Bool :=
  ((a + 256 - b) % 256, decide (a < b))

/-- One XOR-toggle step of `Chip8::draw`'s inner loop, acting on the pair
(framebuffer, VF accumulator): record a collision if the cell is set, then
toggle the cell. -/
def togglePoint (acc : List Bool × Nat) (loc : Nat) : List Bool × Nat :=
  (acc.1.set loc (!(acc.1.getD loc false)),
   if acc.1.getD loc false = true then 1 else acc.2)

/-- The inner `x_col in 0..8` loop of `Chip8::draw` for one sprite row. -/
def drawRowFold (sprite x y yrow : Nat) (acc : List Bool × Nat) :
    List Bool × Nat :=
  (List.range 8).foldl
    (fun a xcol =>
      if 0 < sprite &&& (0x80 >>> xcol) then
        togglePoint a ((x + xcol + (y + yrow) * 64) % 2048)
      else a)
    acc

/-- The outer `for y_row in 0..height` loop of `Chip8::draw`; `none` models
the Rust panic when the sprite-row read `memory[memory_index + y_row]` is out
of range. -/
def drawRows (mem : List Nat) (mi x y height : Nat)
    (acc : List Bool × Nat) : Option (List Bool × Nat) :=
  (List.range height).foldlM
    (fun a yrow =>
      match mem[mi + yrow]? with
      | none => none
      | some sprite => some (drawRowFold sprite x y yrow a))
    acc

/-- `Chip8::draw`: clear VF, then XOR-blit `height` sprite rows read from
`memory[memory_index ..]` at `(x, y)`.  Only VF among the registers is ever
written, first to 0 and possibly later to 1, so the sequence of `write_vf`
calls collapses to a single `List.set 15` with the folded flag value. -/
def draw (s : Chip8) (x y height : Nat) : Option Chip8 :=
  (drawRows s.memory s.memory_index x y height (s.gfx, 0)).map
    (fun acc => { s with gfx := acc.1, register := s.register.set 0x0F acc.2 })

/-- `Chip8::register_dump`: copy registers `0 ..= reg_max` into memory at
`memory_index` (the source writes `0 .. reg_max` in a `for` loop and index
`reg_max` by a separate final statement). -/
def register_dump (s : Chip8) (reg_max : Nat) : Option Chip8 :=
  match (List.range reg_max).foldlM
      (fun mem i => memWrite mem (s.memory_index + i) (s.register.getD i 0))
      s.memory with
  | none => none
  | some mem1 =>
    match memWrite mem1 (s.memory_index + reg_max) (s.register.getD reg_max 0) with
    | none => none
    | some mem2 => some { s with memory := mem2 }

/-- `Chip8::register_load`: copy memory at `memory_index` into registers
`0 ..= reg_max` (loop for `0 .. reg_max`, separate final statement for index
`reg_max`, as in the source).  The memory reads carry the bounds check; the
register stores use in-range indices in the source. -/
def register_load (s : Chip8) (reg_max : Nat) : Option Chip8 :=
  match (List.range reg_max).foldlM
      (fun regs i =>
        match s.memory[s.memory_index + i]? with
        | none => none
        | some v => some (regs.set i v))
      s.register with
  | none => none
  | some regs1 =>
    match s.memory[s.memory_index + reg_max]? with
    | none => none
    | some v => some { s with register := regs1.set reg_max v }

/-- The `0xFX29` lookup table: `match self.read_vx()` with arms `0x0 ..= 0x8`
mapping to font addresses `0, 5, …, 40`; any other register value falls into
the `return Err(UnknownOpcode(..))` arm, modelled as `none`. -/
def sprite_addr (v : Nat) : Option Nat :=
  match v with
  | 0x0 => some 0
  | 0x1 => some 5
  | 0x2 => some 10
  | 0x3 => some 15
  | 0x4 => some 20
  | 0x5 => some 25
  | 0x6 => some 30
  | 0x7 => some 35
  | 0x8 => some 40
  | _ => none

/-- Timer rule at the end of `Chip8::cycle`:
`if timer > 0 { timer -= 1 }`. -/
def tickTimer (t : Nat) : Nat := if 0 < t then t - 1 else t

/-- Outcome of the decode/execute phase of one cycle: normal completion with
the per-branch log text, an early `return Err(..)` carrying the state at the
moment of the return, or a Rust panic. -/
inductive ExecResult where
  | ok : Chip8 → String → ExecResult
  | err : Chip8 → EmulationError → ExecResult
  | panic : ExecResult
deriving DecidableEq, Repr

/-- The `0x0___` family of `Chip8::cycle`: clear-screen (0x00E0), return
(0x00EE, with the `self.stack.pop().unwrap()` panic on an empty stack), and
the unknown-opcode default. -/
def execFamily0 (s : Chip8) : ExecResult :=
  if s.op_code = 0x00E0 then
    .ok (increase_program_counter { s with gfx := s.gfx.map (fun _ => false) })
      "Clear screen"
  else if s.op_code = 0x00EE then
    match s.stack with
    | [] => .panic
    | a :: rest =>
        .ok (increase_program_counter
              { s with program_counter := a, stack := rest })
          "set program counter from stack back"
  else .err s (.UnknownOpcode s.op_code)

/-- The `0xANNN` arm of `Chip8::cycle`: `memory_index := NNN`. -/
def execSetIndex (s : Chip8) : ExecResult :=
  .ok (increase_program_counter { s with memory_index := s.op_code &&& 0x0FFF })
    "write memory"

/-- The `0xDXYN` arm of `Chip8::cycle`: draw, with the Rust panic when a
sprite-row read leaves memory. -/
def execDraw (s : Chip8) : ExecResult :=
  match draw s (read_vx s) (read_vy s) (s.op_code &&& 0x000F) with
  | none => .panic
  | some s' => .ok (increase_program_counter s') "draw"

/-- The `0x8XY_` family of `Chip8::cycle`: inner match on the low nibble of
the opcode.  The source runs `self.increase_program_counter()` once after
the inner match; since the `_ => return Err(..)` arm exits the function
before reaching it, that advance is equivalently applied inside every
successful arm here. -/
def execFamily8 (s : Chip8) : ExecResult :=
  if s.op_code &&& 0x000F = 0x0000 then
    .ok (increase_program_counter (write_vx s (read_vy s))) "move vy into vx"
  else if s.op_code &&& 0x000F = 0x0001 then
    .ok (increase_program_counter (write_vx s ((read_vx s) ||| (read_vy s))))
      "vx = vx or vy"
  else if s.op_code &&& 0x000F = 0x0002 then
    .ok (increase_program_counter (write_vx s ((read_vx s) &&& (read_vy s))))
      "vx = vx and vy"
  else if s.op_code &&& 0x000F = 0x0003 then
    .ok (increase_program_counter (write_vx s ((read_vx s) ^^^ (read_vy s))))
      "vx = vx xor vy"
  else if s.op_code &&& 0x000F = 0x0004 then
    .ok (increase_program_counter
          (write_vf (write_vx s (overflowing_add8 (read_vx s) (read_vy s)).1)
            (if (overflowing_add8 (read_vx s) (read_vy s)).2 then 1 else 0)))
      "vx = vx + vy (with carry flag)"
  else if s.op_code &&& 0x000F = 0x0005 then
    .ok (increase_program_counter
          (write_vf (write_vx s (overflowing_sub8 (read_vx s) (read_vy s)).1)
            (if (overflowing_sub8 (read_vx s) (read_vy s)).2 then 1 else 0)))
      "vx = vx - vy (with carry)"
  else if s.op_code &&& 0x000F = 0x0006 then
    -- VF is written first, then VX is re-read, as in the source.
    .ok (increase_program_counter
          (write_vx (write_vf s ((read_vx s) &&& 0x01))
            ((read_vx (write_vf s ((read_vx s) &&& 0x01))) >>> 1)))
      "vx = vx >> 1"
  else if s.op_code &&& 0x000F = 0x0007 then
    .ok (increase_program_counter
          (write_vf (write_vx s (overflowing_sub8 (read_vy s) (read_vx s)).1)
            (if (overflowing_sub8 (read_vy s) (read_vx s)).2 then 1 else 0)))
      "vx = vy - vx (with carry)"
  else if s.op_code &&& 0x000F = 0x000E then
    .ok (increase_program_counter
          (write_vx (write_vf s ((read_vx s) &&& 0x80))
            (((read_vx (write_vf s ((read_vx s) &&& 0x80))) <<< 1) % 256)))
      "vx = vx << 1"
  else .err s (.UnknownOpcode s.op_code)

/-- The `0xEX__` family of `Chip8::cycle`: key-skip instructions.  The
keypad read `keypad[key]` is bounds-checked because `key` is a full register
byte in the source and can exceed 15. -/
def execFamilyE (s : Chip8) (keypad : List Bool) : ExecResult :=
  if s.op_code &&& 0x00FF = 0x009E then
    match keypad[read_vx s]? with
    | none => .panic
    | some pressed =>
        .ok (increase_program_counter (increase_program_counter_if s pressed))
          "skip if key pressed in vx"
  else if s.op_code &&& 0x00FF = 0x00A1 then
    match keypad[read_vx s]? with
    | none => .panic
    | some pressed =>
        .ok (increase_program_counter (increase_program_counter_if s (!pressed)))
          "skip if key pressed in not vx"
  else .err s (.UnknownOpcode s.op_code)

/-- The `0xFX__` family of `Chip8::cycle`: inner match on the low byte of
the opcode.  As in `execFamily8`, the single `increase_program_counter()`
that follows the inner match in the source is applied inside every
successful arm, the `_ => return Err(..)` arms exiting before it — note in
particular that the wait-for-key arm (`0x0A`) also receives this
unconditional advance. -/
def execFamilyF (s : Chip8) (keypad : List Bool) : ExecResult :=
  if s.op_code &&& 0x00FF = 0x0007 then
    .ok (increase_program_counter (write_vx s s.delay_timer)) "vx = delay timer"
  else if s.op_code &&& 0x00FF = 0x000A then
    .ok (increase_program_counter
          (increase_program_counter_if s (keypad.any (fun key => key))))
      "wait for key press"
  else if s.op_code &&& 0x00FF = 0x0015 then
    .ok (increase_program_counter { s with delay_timer := read_vx s })
      "set delay timer"
  else if s.op_code &&& 0x00FF = 0x0018 then
    .ok (increase_program_counter { s with sound_timer := read_vx s })
      "set sound timer"
  else if s.op_code &&& 0x00FF = 0x001E then
    .ok (increase_program_counter
          { s with memory_index := ((s.memory_index + read_vx s) % 65536) &&& 0x0FFF })
      "i = i + vx"
  else if s.op_code &&& 0x00FF = 0x0029 then
    match sprite_addr (read_vx s) with
    | some a => .ok (increase_program_counter { s with memory_index := a })
        "i = sprite_addr"
    | none => .err s (.UnknownOpcode s.op_code)
  else if s.op_code &&& 0x00FF = 0x0033 then
    match memWrite s.memory s.memory_index (read_vx s / 100) with
    | none => .panic
    | some m1 =>
      match memWrite m1 (s.memory_index + 1) ((read_vx s % 100) / 10) with
      | none => .panic
      | some m2 =>
        match memWrite m2 (s.memory_index + 2) ((read_vx s % 100) % 10) with
        | none => .panic
        | some m3 =>
            .ok (increase_program_counter { s with memory := m3 })
              "vx as decimal number"
  else if s.op_code &&& 0x00FF = 0x0055 then
    match register_dump s ((s.op_code &&& 0x0F00) >>> 8) with
    | none => .panic
    | some s' => .ok (increase_program_counter s') "dump vy"
  else if s.op_code &&& 0x00FF = 0x0065 then
    match register_load s ((s.op_code &&& 0x0F00) >>> 8) with
    | none => .panic
    | some s' => .ok (increase_program_counter s') "load vx"
  else .err s (.UnknownOpcode s.op_code)

/-- The decode + execute part of `Chip8::cycle` (the big `match` on
`self.op_code & 0xF000`), applied to a state whose `op_code` field has
already been set by the fetch. -/
def executeOp (s : Chip8) (keypad : List Bool) (rand : Nat) : ExecResult :=
  if s.op_code &&& 0xF000 = 0x0000 then
    execFamily0 s
  else if s.op_code &&& 0xF000 = 0x1000 then
    .ok (set_program_counter s (s.op_code &&& 0x0FFF)) "set program counter"
  else if s.op_code &&& 0xF000 = 0x2000 then
    .ok (call_at s (s.op_code &&& 0x0FFF)) "call instruction"
  else if s.op_code &&& 0xF000 = 0x3000 then
    .ok (increase_program_counter
          (increase_program_counter_if s (decide (read_vx s = (s.op_code &&& 0x00FF)))))
      "increase pc (match vx)"
  else if s.op_code &&& 0xF000 = 0x4000 then
    .ok (increase_program_counter
          (increase_program_counter_if s (decide (read_vx s ≠ (s.op_code &&& 0x00FF)))))
      "increase pc (not match vx)"
  else if s.op_code &&& 0xF000 = 0x5000 then
    .ok (increase_program_counter
          (increase_program_counter_if s (decide (read_vx s = read_vy s))))
      "increase pc (vx == vy)"
  else if s.op_code &&& 0xF000 = 0x6000 then
    .ok (increase_program_counter (write_vx s (s.op_code &&& 0x00FF))) "write vx"
  else if s.op_code &&& 0xF000 = 0x7000 then
    .ok (increase_program_counter
          (write_vx s (overflowing_add8 (read_vx s) (s.op_code &&& 0x00FF)).1))
      "add into write vx (no carry flag)"
  else if s.op_code &&& 0xF000 = 0x8000 then
    execFamily8 s
  else if s.op_code &&& 0xF000 = 0x9000 then
    .ok (increase_program_counter
          (increase_program_counter_if s (decide (read_vx s ≠ read_vy s))))
      "increase pc vx != vy"
  else if s.op_code &&& 0xF000 = 0xA000 then
    execSetIndex s
  else if s.op_code &&& 0xF000 = 0xB000 then
    .ok (set_program_counter s ((s.op_code &&& 0x0FFF) + s.register.getD 0 0))
      "jump by v0"
  else if s.op_code &&& 0xF000 = 0xC000 then
    .ok (increase_program_counter
          (write_vx s ((rand % 256) &&& (s.op_code &&& 0x00FF))))
      "randomize vx"
  else if s.op_code &&& 0xF000 = 0xD000 then
    execDraw s
  else if s.op_code &&& 0xF000 = 0xE000 then
    execFamilyE s keypad
  else if s.op_code &&& 0xF000 = 0xF000 then
    execFamilyF s keypad
  else .err s (.UnknownOpcode s.op_code)
/-- Outcome of one full `Chip8::cycle` call: `Ok(op_code)` with the new
state, an `Err(..)` return carrying the state at the moment of the early
return, or a Rust panic. -/
inductive CycleResult where
  | ok : Chip8 → Nat → CycleResult
  | err : Chip8 → EmulationError → CycleResult
  | panic : CycleResult
deriving DecidableEq, Repr

/-- `Chip8::cycle`: fetch, decode/execute, append the log line, decrement the
timers, return the executed opcode.  An early `Err` return skips both the log
append and the timer update. -/
def cycle (s : Chip8) (keypad : List Bool) (rand : Nat) : CycleResult :=
  match read_op_code s with
  | none => .panic
  | some op =>
    match executeOp { s with op_code := op } keypad rand with
    | .ok s' lg =>
        let s2 := logAppend s' lg
        .ok { s2 with delay_timer := tickTimer s2.delay_timer,
                      sound_timer := tickTimer s2.sound_timer } op
    | .err s' e => .err s' e
    | .panic => .panic

end Chip8

open Chip8

/-! ## Basic facts about the state helpers -/

/-- `logAppend` touches only the `debug_log` field. -/
theorem logAppend_spec (s : Chip8) (e : String) :
    ∃ dl, s.logAppend e = { s with debug_log := dl } := by
  unfold Chip8.logAppend
  split
  · split
    · exact ⟨_, rfl⟩
    · exact ⟨_, rfl⟩
  · exact ⟨_, rfl⟩

/-- `increase_program_counter_if` touches only the program counter. -/
theorem increase_program_counter_if_spec (s : Chip8) (c : Bool) :
    ∃ pc, s.increase_program_counter_if c = { s with program_counter := pc } := by
  unfold Chip8.increase_program_counter_if Chip8.increase_program_counter
  split
  · exact ⟨_, rfl⟩
  · exact ⟨_, rfl⟩

/-- The register selector extracted from bits 8-11 is a nibble. -/
theorem nibble_lt_16 (op : Nat) : (op &&& 0x0F00) >>> 8 < 16 := by
  have h : op &&& 0x0F00 ≤ 0x0F00 := Nat.and_le_right
  have h2 : (op &&& 0x0F00) >>> 8 = (op &&& 0x0F00) / 2 ^ 8 :=
    Nat.shiftRight_eq_div_pow _ _
  omega

/-! ## C2: return (0x00EE) on an empty call stack -/

/-- A machine about to execute `return` (0x00EE) with an empty call stack. -/
def returnEmptyStackState : Chip8 :=
  { op_code := 0, program_counter := 0, memory := [0x00, 0xEE],
    register := List.replicate 16 0, memory_index := 0, gfx := [],
    delay_timer := 0, sound_timer := 0, stack := [],
    debug_enabled := false, debug_log := [] }

/-- A machine about to execute `return` (0x00EE) with return address 0x300
on the call stack. -/
def returnOneFrameState : Chip8 :=
  { returnEmptyStackState with stack := [0x300] }

/-- **C2.** With a non-empty call stack, `return` (0x00EE) pops the top
address into the program counter and advances it by 2.  With an empty call
stack, however, the code executes `self.stack.pop().unwrap()`, which panics:
the cycle crashes instead of returning a defined fatal `StackUnderflow`
condition to the caller (no such variant even exists in `EmulationError`),
contradicting the claim. -/
theorem return_on_empty_stack_panics :
    (match cycle returnOneFrameState (List.replicate 16 false) 0 with
     | .ok s _ => (s.program_counter, s.stack)
     | _ => (999, [999])) = (0x302, []) ∧
    returnEmptyStackState.stack = [] ∧
    cycle returnEmptyStackState (List.replicate 16 false) 0 = CycleResult.panic :=
  ⟨rfl, rfl, rfl⟩

/-! ## C8: wait-for-key (0xFX0A) -/

/-- A machine about to execute wait-for-key (0xF00A), with a running delay
timer. -/
def waitForKeyState : Chip8 :=
  { op_code := 0, program_counter := 0, memory := [0xF0, 0x0A],
    register := List.replicate 16 0, memory_index := 0, gfx := [],
    delay_timer := 5, sound_timer := 0, stack := [],
    debug_enabled := false, debug_log := [] }

/-- **C8.** The claim (and the source's own comment "Increase counter only if
key press") requires the program counter to stay unchanged when no key is
pressed, and to advance by 2 when a key is pressed.  The code instead falls
through to the unconditional `increase_program_counter()` shared by the whole
`0xF000` family: with an all-false keypad snapshot the program counter
advances from 0 to 2 (the active delay timer does tick 5 → 4), and with a
pressed key it advances by 4. -/
theorem wait_for_key_always_advances :
    waitForKeyState.program_counter = 0 ∧
    (match cycle waitForKeyState (List.replicate 16 false) 0 with
     | .ok s _ => (s.program_counter, s.delay_timer)
     | _ => (999, 999)) = (2, 4) ∧
    (match cycle waitForKeyState (true :: List.replicate 15 false) 0 with
     | .ok s _ => s.program_counter
     | _ => 999) = 4 :=
  ⟨rfl, rfl, rfl⟩

/-! ## Structure lemmas for `cycle` and the operations -/

/-- A successful decode/execute phase yields a successful cycle returning the
fetched opcode; the final state is the executed state with the log possibly
appended and both timers ticked once. -/
theorem cycle_ok_of_executeOp (s : Chip8) (kp : List Bool) (r op : Nat)
    (m : Chip8) (lg : String)
    (hfetch : read_op_code s = some op)
    (hexec : executeOp { s with op_code := op } kp r = ExecResult.ok m lg) :
    ∃ s', cycle s kp r = CycleResult.ok s' op ∧
      s'.op_code = m.op_code ∧
      s'.program_counter = m.program_counter ∧
      s'.memory = m.memory ∧
      s'.register = m.register ∧
      s'.memory_index = m.memory_index ∧
      s'.gfx = m.gfx ∧
      s'.delay_timer = tickTimer m.delay_timer ∧
      s'.sound_timer = tickTimer m.sound_timer ∧
      s'.stack = m.stack := by
  obtain ⟨dl, hdl⟩ := logAppend_spec m lg
  refine ⟨{ m with
      debug_log := dl
      delay_timer := tickTimer m.delay_timer
      sound_timer := tickTimer m.sound_timer },
    ?_, rfl, rfl, rfl, rfl, rfl, rfl, rfl, rfl, rfl⟩
  simp only [cycle, hfetch, hexec, hdl]

/-! ### Dispatch of `executeOp` over the sixteen opcode families -/

/-- `executeOp` always evaluates to the arm selected by the top nibble of
the opcode (case analysis on the dispatch chain). -/
theorem executeOp_dispatch (s : Chip8) (kp : List Bool) (r : Nat) :
    executeOp s kp r = execFamily0 s ∨
    executeOp s kp r =
      ExecResult.ok (set_program_counter s (s.op_code &&& 0x0FFF)) "set program counter" ∨
    executeOp s kp r =
      ExecResult.ok (call_at s (s.op_code &&& 0x0FFF)) "call instruction" ∨
    executeOp s kp r =
      ExecResult.ok (increase_program_counter
        (increase_program_counter_if s (decide (read_vx s = (s.op_code &&& 0x00FF)))))
        "increase pc (match vx)" ∨
    executeOp s kp r =
      ExecResult.ok (increase_program_counter
        (increase_program_counter_if s (decide (read_vx s ≠ (s.op_code &&& 0x00FF)))))
        "increase pc (not match vx)" ∨
    executeOp s kp r =
      ExecResult.ok (increase_program_counter
        (increase_program_counter_if s (decide (read_vx s = read_vy s))))
        "increase pc (vx == vy)" ∨
    executeOp s kp r =
      ExecResult.ok (increase_program_counter (write_vx s (s.op_code &&& 0x00FF))) "write vx" ∨
    executeOp s kp r =
      ExecResult.ok (increase_program_counter
        (write_vx s (overflowing_add8 (read_vx s) (s.op_code &&& 0x00FF)).1))
        "add into write vx (no carry flag)" ∨
    executeOp s kp r = execFamily8 s ∨
    executeOp s kp r =
      ExecResult.ok (increase_program_counter
        (increase_program_counter_if s (decide (read_vx s ≠ read_vy s))))
        "increase pc vx != vy" ∨
    executeOp s kp r = execSetIndex s ∨
    executeOp s kp r =
      ExecResult.ok (set_program_counter s ((s.op_code &&& 0x0FFF) + s.register.getD 0 0))
        "jump by v0" ∨
    executeOp s kp r =
      ExecResult.ok (increase_program_counter
        (write_vx s ((r % 256) &&& (s.op_code &&& 0x00FF)))) "randomize vx" ∨
    executeOp s kp r = execDraw s ∨
    executeOp s kp r = execFamilyE s kp ∨
    executeOp s kp r = execFamilyF s kp ∨
    executeOp s kp r = ExecResult.err s (EmulationError.UnknownOpcode s.op_code) := by
  unfold executeOp
  by_cases h0 : s.op_code &&& 0xF000 = 0x0000
  · rw [if_pos h0]; exact Or.inl rfl
  rw [if_neg h0]
  by_cases h1 : s.op_code &&& 0xF000 = 0x1000
  · rw [if_pos h1]; exact Or.inr (Or.inl rfl)
  rw [if_neg h1]
  by_cases h2 : s.op_code &&& 0xF000 = 0x2000
  · rw [if_pos h2]; exact Or.inr (Or.inr (Or.inl rfl))
  rw [if_neg h2]
  by_cases h3 : s.op_code &&& 0xF000 = 0x3000
  · rw [if_pos h3]; iterate 3 right
    exact Or.inl rfl
  rw [if_neg h3]
  by_cases h4 : s.op_code &&& 0xF000 = 0x4000
  · rw [if_pos h4]; iterate 4 right
    exact Or.inl rfl
  rw [if_neg h4]
  by_cases h5 : s.op_code &&& 0xF000 = 0x5000
  · rw [if_pos h5]; iterate 5 right
    exact Or.inl rfl
  rw [if_neg h5]
  by_cases h6 : s.op_code &&& 0xF000 = 0x6000
  · rw [if_pos h6]; iterate 6 right
    exact Or.inl rfl
  rw [if_neg h6]
  by_cases h7 : s.op_code &&& 0xF000 = 0x7000
  · rw [if_pos h7]; iterate 7 right
    exact Or.inl rfl
  rw [if_neg h7]
  by_cases h8 : s.op_code &&& 0xF000 = 0x8000
  · rw [if_pos h8]; iterate 8 right
    exact Or.inl rfl
  rw [if_neg h8]
  by_cases h9 : s.op_code &&& 0xF000 = 0x9000
  · rw [if_pos h9]; iterate 9 right
    exact Or.inl rfl
  rw [if_neg h9]
  by_cases hA : s.op_code &&& 0xF000 = 0xA000
  · rw [if_pos hA]; iterate 10 right
    exact Or.inl rfl
  rw [if_neg hA]
  by_cases hB : s.op_code &&& 0xF000 = 0xB000
  · rw [if_pos hB]; iterate 11 right
    exact Or.inl rfl
  rw [if_neg hB]
  by_cases hC : s.op_code &&& 0xF000 = 0xC000
  · rw [if_pos hC]; iterate 12 right
    exact Or.inl rfl
  rw [if_neg hC]
  by_cases hD : s.op_code &&& 0xF000 = 0xD000
  · rw [if_pos hD]; iterate 13 right
    exact Or.inl rfl
  rw [if_neg hD]
  by_cases hE : s.op_code &&& 0xF000 = 0xE000
  · rw [if_pos hE]; iterate 14 right
    exact Or.inl rfl
  rw [if_neg hE]
  by_cases hF : s.op_code &&& 0xF000 = 0xF000
  · rw [if_pos hF]; iterate 15 right
    exact Or.inl rfl
  rw [if_neg hF]
  iterate 16 right
  rfl

/-- In the `0x0___` family every `Err` return leaves the state untouched and
carries `UnknownOpcode` with the raw opcode. -/
theorem execFamily0_err_inv (s : Chip8) (t : Chip8) (e : EmulationError)
    (h : execFamily0 s = ExecResult.err t e) :
    t = s ∧ e = EmulationError.UnknownOpcode s.op_code := by
  unfold execFamily0 at h
  repeat' split at h
  all_goals first
    | exact ExecResult.noConfusion h
    | (injection h with h1 h2; exact ⟨h1.symm, h2.symm⟩)

/-- In the `0x8XY_` family every `Err` return leaves the state untouched and
carries `UnknownOpcode` with the raw opcode. -/
theorem execFamily8_err_inv (s : Chip8) (t : Chip8) (e : EmulationError)
    (h : execFamily8 s = ExecResult.err t e) :
    t = s ∧ e = EmulationError.UnknownOpcode s.op_code := by
  unfold execFamily8 at h
  repeat' split at h
  all_goals first
    | exact ExecResult.noConfusion h
    | (injection h with h1 h2; exact ⟨h1.symm, h2.symm⟩)

/-- In the `0xEX__` family every `Err` return leaves the state untouched and
carries `UnknownOpcode` with the raw opcode. -/
theorem execFamilyE_err_inv (s : Chip8) (kp : List Bool) (t : Chip8)
    (e : EmulationError) (h : execFamilyE s kp = ExecResult.err t e) :
    t = s ∧ e = EmulationError.UnknownOpcode s.op_code := by
  unfold execFamilyE at h
  repeat' split at h
  all_goals first
    | exact ExecResult.noConfusion h
    | (injection h with h1 h2; exact ⟨h1.symm, h2.symm⟩)

/-- In the `0xFX__` family every `Err` return leaves the state untouched and
carries `UnknownOpcode` with the raw opcode. -/
theorem execFamilyF_err_inv (s : Chip8) (kp : List Bool) (t : Chip8)
    (e : EmulationError) (h : execFamilyF s kp = ExecResult.err t e) :
    t = s ∧ e = EmulationError.UnknownOpcode s.op_code := by
  unfold execFamilyF at h
  repeat' split at h
  all_goals first
    | exact ExecResult.noConfusion h
    | (injection h with h1 h2; exact ⟨h1.symm, h2.symm⟩)

/-- The draw arm never returns an `Err`. -/
theorem execDraw_err_inv (s : Chip8) (t : Chip8) (e : EmulationError)
    (h : execDraw s = ExecResult.err t e) : False := by
  unfold execDraw at h
  split at h <;> exact ExecResult.noConfusion h

/-- Every `Err` return of the decode/execute phase leaves the state untouched
and carries `UnknownOpcode` with the raw opcode. -/
theorem executeOp_err_inv (s : Chip8) (kp : List Bool) (r : Nat) (t : Chip8)
    (e : EmulationError) (h : executeOp s kp r = ExecResult.err t e) :
    t = s ∧ e = EmulationError.UnknownOpcode s.op_code := by
  rcases executeOp_dispatch s kp r with
    hd | hd | hd | hd | hd | hd | hd | hd | hd | hd | hd | hd | hd | hd | hd | hd | hd
  all_goals rw [hd] at h
  all_goals first
    | exact ExecResult.noConfusion h
    | exact (execDraw_err_inv s t e h).elim
    | exact execFamily0_err_inv s t e h
    | exact execFamily8_err_inv s t e h
    | exact execFamilyE_err_inv s kp t e h
    | exact execFamilyF_err_inv s kp t e h
    | (injection h with h1 h2; exact ⟨h1.symm, h2.symm⟩)

/-- Inversion of a failing `cycle`: the fetch succeeded and the
decode/execute phase returned the error unchanged (so neither the log append
nor the timer update ran). -/
theorem cycle_err_inv (s : Chip8) (kp : List Bool) (r : Nat) (t : Chip8)
    (e : EmulationError) (h : cycle s kp r = CycleResult.err t e) :
    ∃ op, read_op_code s = some op ∧
      executeOp { s with op_code := op } kp r = ExecResult.err t e := by
  unfold cycle at h
  split at h
  · exact CycleResult.noConfusion h
  next op hfetch =>
    split at h
    · exact CycleResult.noConfusion h
    · next s' e' hexec =>
        injection h with h1 h2
        exact ⟨op, hfetch, h1 ▸ h2 ▸ hexec⟩
    · exact CycleResult.noConfusion h

/-- Inversion of a successful `cycle`: the fetch succeeded, the
decode/execute phase succeeded, and the final state is the executed state
with the log possibly appended and both timers ticked once. -/
theorem cycle_ok_inv (s : Chip8) (kp : List Bool) (r : Nat) (s' : Chip8)
    (c : Nat) (h : cycle s kp r = CycleResult.ok s' c) :
    ∃ m lg dl, read_op_code s = some c ∧
      executeOp { s with op_code := c } kp r = ExecResult.ok m lg ∧
      logAppend m lg = { m with debug_log := dl } ∧
      s' = { m with
        debug_log := dl
        delay_timer := tickTimer m.delay_timer
        sound_timer := tickTimer m.sound_timer } := by
  unfold cycle at h
  split at h
  · exact CycleResult.noConfusion h
  next op hfetch =>
    split at h
    · next m lg hexec =>
        obtain ⟨dl, hdl⟩ := logAppend_spec m lg
        injection h with h1 h2
        subst h2
        refine ⟨m, lg, dl, hfetch, hexec, hdl, ?_⟩
        rw [← h1, hdl]
    · exact CycleResult.noConfusion h
    · exact CycleResult.noConfusion h

/-! ### Field-preservation facts for the state helpers -/

@[simp] theorem increase_program_counter_debug_log (s : Chip8) :
    (increase_program_counter s).debug_log = s.debug_log := rfl

@[simp] theorem increase_program_counter_debug_enabled (s : Chip8) :
    (increase_program_counter s).debug_enabled = s.debug_enabled := rfl

@[simp] theorem increase_program_counter_if_debug_log (s : Chip8) (c : Bool) :
    (increase_program_counter_if s c).debug_log = s.debug_log := by
  unfold Chip8.increase_program_counter_if
  split <;> rfl

@[simp] theorem increase_program_counter_if_debug_enabled (s : Chip8) (c : Bool) :
    (increase_program_counter_if s c).debug_enabled = s.debug_enabled := by
  unfold Chip8.increase_program_counter_if
  split <;> rfl

@[simp] theorem write_vx_debug_log (s : Chip8) (v : Nat) :
    (write_vx s v).debug_log = s.debug_log := rfl

@[simp] theorem write_vx_debug_enabled (s : Chip8) (v : Nat) :
    (write_vx s v).debug_enabled = s.debug_enabled := rfl

@[simp] theorem write_vf_debug_log (s : Chip8) (v : Nat) :
    (write_vf s v).debug_log = s.debug_log := rfl

@[simp] theorem write_vf_debug_enabled (s : Chip8) (v : Nat) :
    (write_vf s v).debug_enabled = s.debug_enabled := rfl

@[simp] theorem set_program_counter_debug_log (s : Chip8) (i : Nat) :
    (set_program_counter s i).debug_log = s.debug_log := rfl

@[simp] theorem set_program_counter_debug_enabled (s : Chip8) (i : Nat) :
    (set_program_counter s i).debug_enabled = s.debug_enabled := rfl

@[simp] theorem call_at_debug_log (s : Chip8) (a : Nat) :
    (call_at s a).debug_log = s.debug_log := rfl

@[simp] theorem call_at_debug_enabled (s : Chip8) (a : Nat) :
    (call_at s a).debug_enabled = s.debug_enabled := rfl

/-! ### Shape lemmas for draw, register dump and register load -/

/-- A successful `draw` only rewrites the framebuffer and VF. -/
theorem draw_some_shape (s : Chip8) (x y h : Nat) (t : Chip8)
    (hd : draw s x y h = some t) :
    ∃ acc, drawRows s.memory s.memory_index x y h (s.gfx, 0) = some acc ∧
      t = { s with gfx := acc.1, register := s.register.set 0x0F acc.2 } := by
  unfold draw at hd
  cases hr : drawRows s.memory s.memory_index x y h (s.gfx, 0) with
  | none => rw [hr] at hd; exact Option.noConfusion hd
  | some acc =>
      rw [hr] at hd
      injection hd with h1
      exact ⟨acc, rfl, h1.symm⟩

/-- A successful `register_dump` only rewrites memory. -/
theorem register_dump_some_shape (s : Chip8) (k : Nat) (t : Chip8)
    (hd : register_dump s k = some t) :
    ∃ mem2, t = { s with memory := mem2 } := by
  unfold register_dump at hd
  split at hd
  · exact Option.noConfusion hd
  · split at hd
    · exact Option.noConfusion hd
    · injection hd with h1
      exact ⟨_, h1.symm⟩

/-- A successful `register_load` only rewrites the register file. -/
theorem register_load_some_shape (s : Chip8) (k : Nat) (t : Chip8)
    (hd : register_load s k = some t) :
    ∃ regs, t = { s with register := regs } := by
  unfold register_load at hd
  split at hd
  · exact Option.noConfusion hd
  · split at hd
    · exact Option.noConfusion hd
    · injection hd with h1
      exact ⟨_, h1.symm⟩

/-! ### The decode/execute phase never touches the debug trace -/

/-- Successful `0x0___` operations leave both debug fields unchanged. -/
theorem execFamily0_ok_debug (s : Chip8) (m : Chip8) (lg : String)
    (h : execFamily0 s = ExecResult.ok m lg) :
    m.debug_log = s.debug_log ∧ m.debug_enabled = s.debug_enabled := by
  unfold execFamily0 at h
  repeat' split at h
  all_goals first
    | exact ExecResult.noConfusion h
    | (injection h with h1 h2; subst h1; refine ⟨?_, ?_⟩ <;> (simp; done))

/-- Successful `0x8XY_` operations leave both debug fields unchanged. -/
theorem execFamily8_ok_debug (s : Chip8) (m : Chip8) (lg : String)
    (h : execFamily8 s = ExecResult.ok m lg) :
    m.debug_log = s.debug_log ∧ m.debug_enabled = s.debug_enabled := by
  unfold execFamily8 at h
  repeat' split at h
  all_goals first
    | exact ExecResult.noConfusion h
    | (injection h with h1 h2; subst h1; refine ⟨?_, ?_⟩ <;> (simp; done))

/-- Successful `0xEX__` operations leave both debug fields unchanged. -/
theorem execFamilyE_ok_debug (s : Chip8) (kp : List Bool) (m : Chip8)
    (lg : String) (h : execFamilyE s kp = ExecResult.ok m lg) :
    m.debug_log = s.debug_log ∧ m.debug_enabled = s.debug_enabled := by
  unfold execFamilyE at h
  repeat' split at h
  all_goals first
    | exact ExecResult.noConfusion h
    | (injection h with h1 h2; subst h1; refine ⟨?_, ?_⟩ <;> (simp; done))

/-- Successful `0xFX__` operations leave both debug fields unchanged. -/
theorem execFamilyF_ok_debug (s : Chip8) (kp : List Bool) (m : Chip8)
    (lg : String) (h : execFamilyF s kp = ExecResult.ok m lg) :
    m.debug_log = s.debug_log ∧ m.debug_enabled = s.debug_enabled := by
  unfold execFamilyF at h
  repeat' split at h
  all_goals first
    | exact ExecResult.noConfusion h
    | (injection h with h1 h2; subst h1; refine ⟨?_, ?_⟩ <;> (simp; done))
    | (injection h with h1 h2; subst h1;
       rename_i heq
       obtain ⟨mem2, rfl⟩ := register_dump_some_shape _ _ _ heq
       refine ⟨?_, ?_⟩ <;> (simp; done))
    | (injection h with h1 h2; subst h1;
       rename_i heq
       obtain ⟨regs1, rfl⟩ := register_load_some_shape _ _ _ heq
       refine ⟨?_, ?_⟩ <;> (simp; done))

/-- A successful draw arm leaves both debug fields unchanged. -/
theorem execDraw_ok_debug (s : Chip8) (m : Chip8) (lg : String)
    (h : execDraw s = ExecResult.ok m lg) :
    m.debug_log = s.debug_log ∧ m.debug_enabled = s.debug_enabled := by
  unfold execDraw at h
  split at h
  · exact ExecResult.noConfusion h
  · next s1 heq =>
      injection h with h1 h2
      subst h1
      obtain ⟨acc, _, rfl⟩ := draw_some_shape _ _ _ _ _ heq
      refine ⟨?_, ?_⟩ <;> (simp; done)

/-- The whole decode/execute phase leaves both debug fields unchanged on
success: the only logging in a cycle is the single append in `cycle`. -/
theorem executeOp_ok_debug (s : Chip8) (kp : List Bool) (r : Nat) (m : Chip8)
    (lg : String) (h : executeOp s kp r = ExecResult.ok m lg) :
    m.debug_log = s.debug_log ∧ m.debug_enabled = s.debug_enabled := by
  rcases executeOp_dispatch s kp r with
    hd | hd | hd | hd | hd | hd | hd | hd | hd | hd | hd | hd | hd | hd | hd | hd | hd
  all_goals rw [hd] at h
  all_goals first
    | exact ExecResult.noConfusion h
    | exact execFamily0_ok_debug s m lg h
    | exact execFamily8_ok_debug s m lg h
    | exact execFamilyE_ok_debug s kp m lg h
    | exact execFamilyF_ok_debug s kp m lg h
    | exact execDraw_ok_debug s m lg h
    | (injection h with h1 h2; subst h1; refine ⟨?_, ?_⟩ <;> (simp; done))

/-! ## C10: failing cycles leave the architectural state unchanged -/

/-- **C10.** If `cycle` returns an error then the error is `UnknownOpcode`
carrying the freshly fetched opcode (the only field that changed), and every
other architectural field is untouched: program counter, memory, registers,
memory index, framebuffer, call stack, both timers, and the debug trace — in
particular no trace entry is appended and the timers are not decremented on
a failing cycle. -/
theorem cycle_err_state_unchanged (s : Chip8) (kp : List Bool) (r : Nat)
    (t : Chip8) (e : EmulationError) (h : cycle s kp r = CycleResult.err t e) :
    e = EmulationError.UnknownOpcode t.op_code ∧
    t.program_counter = s.program_counter ∧
    t.memory = s.memory ∧
    t.register = s.register ∧
    t.memory_index = s.memory_index ∧
    t.gfx = s.gfx ∧
    t.stack = s.stack ∧
    t.delay_timer = s.delay_timer ∧
    t.sound_timer = s.sound_timer ∧
    t.debug_log = s.debug_log := by
  obtain ⟨op, hfetch, hexec⟩ := cycle_err_inv s kp r t e h
  obtain ⟨ht, he⟩ := executeOp_err_inv _ kp r t e hexec
  subst ht
  exact ⟨he, rfl, rfl, rfl, rfl, rfl, rfl, rfl, rfl, rfl⟩

/-- A state whose next instruction is the unknown opcode 0xFFFF. -/
def unknownOpcodeState : Chip8 :=
  { op_code := 0, program_counter := 0, memory := [0xFF, 0xFF],
    register := List.replicate 16 2, memory_index := 3, gfx := [true],
    delay_timer := 2, sound_timer := 1, stack := [7],
    debug_enabled := true, debug_log := ["entry"] }

/-- Witness for C10: executing 0xFFFF fails with `UnknownOpcode` and leaves
all fields except `op_code` (including the running timers and the trace)
unchanged. -/
theorem cycle_err_state_unchanged_witness :
    (cycle unknownOpcodeState (List.replicate 16 false) 0 =
      CycleResult.err { unknownOpcodeState with op_code := 0xFFFF }
        (EmulationError.UnknownOpcode 0xFFFF)) ∧
    (EmulationError.UnknownOpcode 0xFFFF =
      EmulationError.UnknownOpcode
        ({ unknownOpcodeState with op_code := 0xFFFF }).op_code ∧
     ({ unknownOpcodeState with op_code := 0xFFFF }).program_counter =
        unknownOpcodeState.program_counter ∧
     ({ unknownOpcodeState with op_code := 0xFFFF }).memory =
        unknownOpcodeState.memory ∧
     ({ unknownOpcodeState with op_code := 0xFFFF }).register =
        unknownOpcodeState.register ∧
     ({ unknownOpcodeState with op_code := 0xFFFF }).memory_index =
        unknownOpcodeState.memory_index ∧
     ({ unknownOpcodeState with op_code := 0xFFFF }).gfx =
        unknownOpcodeState.gfx ∧
     ({ unknownOpcodeState with op_code := 0xFFFF }).stack =
        unknownOpcodeState.stack ∧
     ({ unknownOpcodeState with op_code := 0xFFFF }).delay_timer =
        unknownOpcodeState.delay_timer ∧
     ({ unknownOpcodeState with op_code := 0xFFFF }).sound_timer =
        unknownOpcodeState.sound_timer ∧
     ({ unknownOpcodeState with op_code := 0xFFFF }).debug_log =
        unknownOpcodeState.debug_log) :=
  ⟨rfl, cycle_err_state_unchanged unknownOpcodeState (List.replicate 16 false) 0
    { unknownOpcodeState with op_code := 0xFFFF }
    (EmulationError.UnknownOpcode 0xFFFF) rfl⟩

/-! ## C7: timer decrement rule -/

/-- **C7.** On every successful `cycle` call, each timer is decremented by
exactly 1 after the executed operation if it is positive at that point, and
a timer that is 0 at that point is left at 0 (never decremented below 0,
never wrapping): the final timers relate to the post-execution state `m` by
the guarded-decrement rule. -/
theorem cycle_timer_decrement (s : Chip8) (kp : List Bool) (r : Nat)
    (s' : Chip8) (c : Nat) (h : cycle s kp r = CycleResult.ok s' c) :
    ∃ m lg, executeOp { s with op_code := c } kp r = ExecResult.ok m lg ∧
      s'.delay_timer =
        (if 0 < m.delay_timer then m.delay_timer - 1 else m.delay_timer) ∧
      s'.sound_timer =
        (if 0 < m.sound_timer then m.sound_timer - 1 else m.sound_timer) := by
  obtain ⟨m, lg, dl, hfetch, hexec, hdl, hs⟩ := cycle_ok_inv s kp r s' c h
  subst hs
  exact ⟨m, lg, hexec, rfl, rfl⟩

/-- A state about to run clear-screen with a positive delay timer and a zero
sound timer. -/
def timerWitnessState : Chip8 :=
  { op_code := 0, program_counter := 0, memory := [0x00, 0xE0],
    register := [], memory_index := 0, gfx := [true],
    delay_timer := 3, sound_timer := 0, stack := [],
    debug_enabled := false, debug_log := [] }

/-- The state after one cycle of `timerWitnessState`: the delay timer went
3 → 2 and the zero sound timer stayed 0. -/
def timerWitnessResult : Chip8 :=
  { op_code := 0x00E0, program_counter := 2, memory := [0x00, 0xE0],
    register := [], memory_index := 0, gfx := [false],
    delay_timer := 2, sound_timer := 0, stack := [],
    debug_enabled := false, debug_log := [] }

/-- Witness for C7 at a concrete successful cycle. -/
theorem cycle_timer_decrement_witness :
    (cycle timerWitnessState (List.replicate 16 false) 0 =
      CycleResult.ok timerWitnessResult 0x00E0) ∧
    (∃ m lg,
      executeOp { timerWitnessState with op_code := 0x00E0 }
        (List.replicate 16 false) 0 = ExecResult.ok m lg ∧
      timerWitnessResult.delay_timer =
        (if 0 < m.delay_timer then m.delay_timer - 1 else m.delay_timer) ∧
      timerWitnessResult.sound_timer =
        (if 0 < m.sound_timer then m.sound_timer - 1 else m.sound_timer)) :=
  ⟨rfl, cycle_timer_decrement timerWitnessState (List.replicate 16 false) 0
    timerWitnessResult 0x00E0 rfl⟩

/-! ## C9: the bounded debug trace -/

/-- One append never grows the trace by more than one entry. -/
theorem logAppend_length_le (s : Chip8) (e : String) :
    (s.logAppend e).debug_log.length ≤ s.debug_log.length + 1 := by
  unfold Chip8.logAppend
  split
  · split
    · simp [List.length_tail]
    · simp
  · simp

/-- **C9.** The debug trace is bounded by 51 entries: an append keeps the
length ≤ 51 whenever it was ≤ 51 before (the size invariant), appends
nothing when diagnostics are disabled, evicts the oldest entry first (strict
FIFO) exactly when the trace is over the 50-entry buffer size, appends to
the back otherwise, and a whole `cycle` grows the trace by at most one
entry — and not at all when diagnostics are disabled. -/
theorem debug_trace_bounded (s : Chip8) (e : String) (kp : List Bool)
    (r : Nat) (s' : Chip8) (c : Nat) :
    (s.debug_log.length ≤ 51 → (s.logAppend e).debug_log.length ≤ 51) ∧
    (s.debug_enabled = false → (s.logAppend e).debug_log = s.debug_log) ∧
    (s.debug_enabled = true → 50 < s.debug_log.length →
      (s.logAppend e).debug_log = s.debug_log.tail ++ [e]) ∧
    (s.debug_enabled = true → s.debug_log.length ≤ 50 →
      (s.logAppend e).debug_log = s.debug_log ++ [e]) ∧
    (cycle s kp r = CycleResult.ok s' c →
      s'.debug_log.length ≤ s.debug_log.length + 1) ∧
    (cycle s kp r = CycleResult.ok s' c → s.debug_enabled = false →
      s'.debug_log = s.debug_log) := by
  refine ⟨?_, ?_, ?_, ?_, ?_, ?_⟩
  · intro hlen
    unfold Chip8.logAppend DEBUG_LOG_BUFFER_SIZE
    split
    · split
      · simp only [List.length_append, List.length_tail, List.length_cons, List.length_nil]
        omega
      · simp only [List.length_append, List.length_cons, List.length_nil]
        omega
    · omega
  · intro hoff
    unfold Chip8.logAppend
    rw [if_neg (by simp [hoff])]
  · intro hon hfull
    unfold Chip8.logAppend DEBUG_LOG_BUFFER_SIZE
    rw [if_pos hon, if_pos hfull]
  · intro hon hle
    unfold Chip8.logAppend DEBUG_LOG_BUFFER_SIZE
    rw [if_pos hon, if_neg (by omega)]
  · intro h
    obtain ⟨m, lg, dl, hfetch, hexec, hdl, hs⟩ := cycle_ok_inv s kp r s' c h
    obtain ⟨hmlog, hmen⟩ := executeOp_ok_debug _ kp r m lg hexec
    subst hs
    have h1 : dl = (m.logAppend lg).debug_log := by rw [hdl]
    have h2 := logAppend_length_le m lg
    simp only [← h1] at h2
    simpa [hmlog] using h2
  · intro h hoff
    obtain ⟨m, lg, dl, hfetch, hexec, hdl, hs⟩ := cycle_ok_inv s kp r s' c h
    obtain ⟨hmlog, hmen⟩ := executeOp_ok_debug _ kp r m lg hexec
    subst hs
    have hmen' : m.debug_enabled = false := by
      rw [hmen]
      exact hoff
    have h1 : dl = (m.logAppend lg).debug_log := by rw [hdl]
    have h2 : m.logAppend lg = m := by
      unfold Chip8.logAppend
      rw [if_neg (by simp [hmen'])]
    simp only [h2] at h1
    simpa [h1] using hmlog

/-- A diagnostics-enabled machine whose trace is full (51 entries), about to
execute clear-screen. -/
def logWitnessState : Chip8 :=
  { op_code := 0, program_counter := 0, memory := [0x00, 0xE0],
    register := [], memory_index := 0, gfx := [],
    delay_timer := 0, sound_timer := 0, stack := [],
    debug_enabled := true, debug_log := List.replicate 51 "o" }

/-- The state after one cycle of `logWitnessState`: the oldest of the 51
entries was evicted and the new entry appended at the back. -/
def logWitnessResult : Chip8 :=
  { op_code := 0x00E0, program_counter := 2, memory := [0x00, 0xE0],
    register := [], memory_index := 0, gfx := [],
    delay_timer := 0, sound_timer := 0, stack := [],
    debug_enabled := true,
    debug_log := List.replicate 50 "o" ++ ["Clear screen"] }

/-- Witness for C9 at a concrete full trace. -/
theorem debug_trace_bounded_witness :
    (logWitnessState.debug_log.length ≤ 51 ∧
      (logWitnessState.logAppend "x").debug_log.length ≤ 51) ∧
    (logWitnessState.debug_enabled = true ∧ 50 < logWitnessState.debug_log.length ∧
      (logWitnessState.logAppend "x").debug_log =
        logWitnessState.debug_log.tail ++ ["x"]) ∧
    (cycle logWitnessState (List.replicate 16 false) 0 =
      CycleResult.ok logWitnessResult 0x00E0 ∧
      logWitnessResult.debug_log.length ≤ logWitnessState.debug_log.length + 1) := by
  have h := debug_trace_bounded logWitnessState "x" (List.replicate 16 false) 0
    logWitnessResult 0x00E0
  refine ⟨⟨by decide, h.1 (by decide)⟩,
          ⟨rfl, by decide, h.2.2.1 rfl (by decide)⟩,
          ⟨by decide, h.2.2.2.2.1 (by decide)⟩⟩

/-! ### Positive-direction reduction lemmas -/

@[simp] theorem increase_program_counter_op_code (s : Chip8) :
    (increase_program_counter s).op_code = s.op_code := rfl

@[simp] theorem increase_program_counter_memory (s : Chip8) :
    (increase_program_counter s).memory = s.memory := rfl

@[simp] theorem increase_program_counter_register (s : Chip8) :
    (increase_program_counter s).register = s.register := rfl

@[simp] theorem increase_program_counter_memory_index (s : Chip8) :
    (increase_program_counter s).memory_index = s.memory_index := rfl

@[simp] theorem increase_program_counter_gfx (s : Chip8) :
    (increase_program_counter s).gfx = s.gfx := rfl

@[simp] theorem increase_program_counter_stack (s : Chip8) :
    (increase_program_counter s).stack = s.stack := rfl

@[simp] theorem increase_program_counter_delay_timer (s : Chip8) :
    (increase_program_counter s).delay_timer = s.delay_timer := rfl

@[simp] theorem increase_program_counter_sound_timer (s : Chip8) :
    (increase_program_counter s).sound_timer = s.sound_timer := rfl

theorem increase_program_counter_pc (s : Chip8) :
    (increase_program_counter s).program_counter =
      (s.program_counter + 2) % 65536 := rfl

/-- Dispatch: an opcode with top nibble `0xF` runs the `0xFX__` family. -/
theorem executeOp_eq_familyF (s : Chip8) (kp : List Bool) (r : Nat)
    (hfam : s.op_code &&& 0xF000 = 0xF000) :
    executeOp s kp r = execFamilyF s kp := by
  unfold executeOp
  rw [hfam]
  norm_num

/-- A cycle whose decode/execute phase fails propagates the failure. -/
theorem cycle_err_of_executeOp (s : Chip8) (kp : List Bool) (r op : Nat)
    (t : Chip8) (e : EmulationError)
    (hfetch : read_op_code s = some op)
    (hexec : executeOp { s with op_code := op } kp r = ExecResult.err t e) :
    cycle s kp r = CycleResult.err t e := by
  unfold cycle
  rw [hfetch]
  dsimp only
  rw [hexec]

/-- Font lookup succeeds on digits 0-8, with address `5 × digit`. -/
theorem sprite_addr_le8 (v : Nat) (h : v ≤ 8) : sprite_addr v = some (5 * v) := by
  interval_cases v <;> rfl

/-- Font lookup hits the error default on every value from 9 upward. -/
theorem sprite_addr_ge9 (v : Nat) (h : 9 ≤ v) : sprite_addr v = none := by
  obtain ⟨k, rfl⟩ : ∃ k, v = k + 9 := ⟨v - 9, by omega⟩
  rfl

/-- The `0x29` arm of the `0xFX__` family: font lookup on the full VX value. -/
theorem execFamilyF_29 (s : Chip8) (kp : List Bool)
    (hsub : s.op_code &&& 0x00FF = 0x29) :
    execFamilyF s kp =
      match sprite_addr (read_vx s) with
      | some a =>
          ExecResult.ok (increase_program_counter { s with memory_index := a })
            "i = sprite_addr"
      | none => ExecResult.err s (EmulationError.UnknownOpcode s.op_code) := by
  unfold execFamilyF
  rw [hsub]
  norm_num

/-! ## C1: index-from-sprite-digit (0xFX29) -/

/-- **C1 (amended).** Executing index-from-sprite-digit (0xFX29) sets
`memory_index` to `5 × v` where `v` is the **full value** of VX (not its low
nibble), whenever `v ≤ 8`; every register value `v ≥ 9` — not merely the
nibbles 9-15 — yields an `UnknownOpcode` failure carrying the raw opcode. -/
theorem sprite_digit_full_value (s : Chip8) (kp : List Bool) (r op : Nat)
    (hfetch : read_op_code s = some op)
    (hfam : op &&& 0xF000 = 0xF000) (hsub : op &&& 0x00FF = 0x29) :
    (read_vx { s with op_code := op } ≤ 8 →
      ∃ s', cycle s kp r = CycleResult.ok s' op ∧
        s'.memory_index = 5 * read_vx { s with op_code := op }) ∧
    (9 ≤ read_vx { s with op_code := op } →
      cycle s kp r = CycleResult.err { s with op_code := op }
        (EmulationError.UnknownOpcode op)) := by
  have hF : executeOp { s with op_code := op } kp r =
      execFamilyF { s with op_code := op } kp :=
    executeOp_eq_familyF _ kp r hfam
  have h29 := execFamilyF_29 { s with op_code := op } kp hsub
  constructor
  · intro hle
    have hsa := sprite_addr_le8 _ hle
    have hexec : executeOp { s with op_code := op } kp r =
        ExecResult.ok
          (increase_program_counter
            { s with op_code := op,
                     memory_index := 5 * read_vx { s with op_code := op } })
          "i = sprite_addr" := by
      rw [hF, h29, hsa]
    obtain ⟨s', hcyc, _, _, _, _, hmi, _, _, _, _⟩ :=
      cycle_ok_of_executeOp s kp r op _ _ hfetch hexec
    refine ⟨s', hcyc, ?_⟩
    rw [hmi]
    simp
  · intro hge
    have hsa := sprite_addr_ge9 _ hge
    have hexec : executeOp { s with op_code := op } kp r =
        ExecResult.err { s with op_code := op }
          (EmulationError.UnknownOpcode op) := by
      rw [hF, h29, hsa]
    exact cycle_err_of_executeOp s kp r op _ _ hfetch hexec

/-- A machine about to execute 0xF029 with V0 = 16 (low nibble 0). -/
def spriteDigitNibbleState : Chip8 :=
  { op_code := 0, program_counter := 0, memory := [0xF0, 0x29],
    register := List.replicate 16 16, memory_index := 7, gfx := [],
    delay_timer := 0, sound_timer := 0, stack := [],
    debug_enabled := false, debug_log := [] }

/-- **C1, counterexample.** VX = 16 = 0x10 has low nibble 0, so the claim
demands that 0xF029 succeed with `memory_index = 5 × 0 = 0`; the code
matches on the full register value and instead fails with `UnknownOpcode`
even though the low nibble 0 is not in 9-15. -/
theorem sprite_digit_nibble_counterexample :
    spriteDigitNibbleState.register.getD 0 0 = 16 ∧
    spriteDigitNibbleState.register.getD 0 0 % 16 = 0 ∧
    cycle spriteDigitNibbleState (List.replicate 16 false) 0 =
      CycleResult.err { spriteDigitNibbleState with op_code := 0xF029 }
        (EmulationError.UnknownOpcode 0xF029) :=
  ⟨rfl, rfl, rfl⟩

/-- A machine about to execute 0xF029 with V0 = 3. -/
def spriteDigitWitnessState : Chip8 :=
  { op_code := 0, program_counter := 0, memory := [0xF0, 0x29],
    register := List.replicate 16 3, memory_index := 7, gfx := [],
    delay_timer := 0, sound_timer := 0, stack := [],
    debug_enabled := false, debug_log := [] }

/-- Witness for the amended C1: with V0 = 3 the cycle succeeds and sets
`memory_index = 15`. -/
theorem sprite_digit_full_value_witness :
    (read_op_code spriteDigitWitnessState = some 0xF029) ∧
    ((0xF029 : Nat) &&& 0xF000 = 0xF000) ∧
    ((0xF029 : Nat) &&& 0x00FF = 0x29) ∧
    (read_vx { spriteDigitWitnessState with op_code := 0xF029 } ≤ 8) ∧
    (∃ s', cycle spriteDigitWitnessState (List.replicate 16 false) 0 =
        CycleResult.ok s' 0xF029 ∧
      s'.memory_index =
        5 * read_vx { spriteDigitWitnessState with op_code := 0xF029 }) :=
  ⟨rfl, by decide, by decide, by decide,
   (sprite_digit_full_value spriteDigitWitnessState (List.replicate 16 false) 0
      0xF029 rfl (by decide) (by decide)).1 (by decide)⟩

/-- Dispatch: an opcode with top nibble `0x8` runs the `0x8XY_` family. -/
theorem executeOp_eq_family8 (s : Chip8) (kp : List Bool) (r : Nat)
    (hfam : s.op_code &&& 0xF000 = 0x8000) :
    executeOp s kp r = execFamily8 s := by
  unfold executeOp
  rw [hfam]
  norm_num

/-- The `0x4` arm of the `0x8XY_` family: add with carry flag. -/
theorem execFamily8_4 (s : Chip8) (hsub : s.op_code &&& 0x000F = 0x0004) :
    execFamily8 s =
      ExecResult.ok (increase_program_counter
        (write_vf (write_vx s (overflowing_add8 (read_vx s) (read_vy s)).1)
          (if (overflowing_add8 (read_vx s) (read_vy s)).2 then 1 else 0)))
        "vx = vx + vy (with carry flag)" := by
  unfold execFamily8
  rw [hsub]
  norm_num

/-- The `0x5` arm of the `0x8XY_` family: subtract with borrow flag. -/
theorem execFamily8_5 (s : Chip8) (hsub : s.op_code &&& 0x000F = 0x0005) :
    execFamily8 s =
      ExecResult.ok (increase_program_counter
        (write_vf (write_vx s (overflowing_sub8 (read_vx s) (read_vy s)).1)
          (if (overflowing_sub8 (read_vx s) (read_vy s)).2 then 1 else 0)))
        "vx = vx - vy (with carry)" := by
  unfold execFamily8
  rw [hsub]
  norm_num

/-- Reading back a doubly-set register file: the VX slot and the VF slot. -/
theorem getD_set_set (R : List Nat) (X v c : Nat) (hlen : R.length = 16)
    (hX : X < 16) (hne : X ≠ 15) :
    ((R.set X v).set 15 c).getD X 0 = v ∧
    ((R.set X v).set 15 c).getD 15 0 = c := by
  constructor
  · rw [List.getD_eq_getElem?_getD,
        List.getElem?_set_ne (by omega : (15 : Nat) ≠ X),
        List.getElem?_set_eq_of_lt v (by rw [hlen]; omega)]
    rfl
  · rw [List.getD_eq_getElem?_getD,
        List.getElem?_set_eq_of_lt c (by rw [List.length_set, hlen]; omega)]
    rfl

/-! ## C3: add-with-carry (0x8XY4) -/

/-- **C3.** For byte values `a` in VX and `b` in VY with X ≠ 15, executing
add-with-carry (0x8XY4) sets VX to `(a + b) % 256` and VF to 1 exactly when
`a + b > 255`, else 0. -/
theorem add_with_carry_flag (s : Chip8) (kp : List Bool) (r op a b : Nat)
    (hfetch : read_op_code s = some op)
    (hfam : op &&& 0xF000 = 0x8000) (hsub : op &&& 0x000F = 0x0004)
    (hX : (op &&& 0x0F00) >>> 8 ≠ 15)
    (hlen : s.register.length = 16)
    (ha : s.register.getD ((op &&& 0x0F00) >>> 8) 0 = a)
    (hb : s.register.getD ((op &&& 0x00F0) >>> 4) 0 = b)
    (ha' : a < 256) (hb' : b < 256) :
    ∃ s', cycle s kp r = CycleResult.ok s' op ∧
      s'.register.getD ((op &&& 0x0F00) >>> 8) 0 = (a + b) % 256 ∧
      s'.register.getD 15 0 = (if 255 < a + b then 1 else 0) := by
  have hexec : executeOp { s with op_code := op } kp r =
      ExecResult.ok (increase_program_counter
        (write_vf (write_vx { s with op_code := op }
            (overflowing_add8 (read_vx { s with op_code := op })
              (read_vy { s with op_code := op })).1)
          (if (overflowing_add8 (read_vx { s with op_code := op })
                (read_vy { s with op_code := op })).2 then 1 else 0)))
        "vx = vx + vy (with carry flag)" := by
    rw [executeOp_eq_family8 _ kp r hfam, execFamily8_4 _ hsub]
  obtain ⟨s', hcyc, _, _, _, hreg, _, _, _, _, _⟩ :=
    cycle_ok_of_executeOp s kp r op _ _ hfetch hexec
  refine ⟨s', hcyc, ?_, ?_⟩
  · rw [hreg]
    simp only [increase_program_counter_register]
    unfold Chip8.write_vf Chip8.write_vx Chip8.read_vx Chip8.read_vy
    simp only [ha, hb, overflowing_add8]
    have := getD_set_set s.register ((op &&& 0x0F00) >>> 8) ((a + b) % 256)
      (if decide (255 < a + b) then 1 else 0) hlen (nibble_lt_16 op) hX
    simpa using this.1
  · rw [hreg]
    simp only [increase_program_counter_register]
    unfold Chip8.write_vf Chip8.write_vx Chip8.read_vx Chip8.read_vy
    simp only [ha, hb, overflowing_add8]
    have := getD_set_set s.register ((op &&& 0x0F00) >>> 8) ((a + b) % 256)
      (if decide (255 < a + b) then 1 else 0) hlen (nibble_lt_16 op) hX
    rw [this.2]
    simp

/-- A machine about to execute 0x8014 (V0 := V0 + V1) with V0 = 200,
V1 = 100. -/
def addCarryWitnessState : Chip8 :=
  { op_code := 0, program_counter := 0, memory := [0x80, 0x14],
    register := [200, 100] ++ List.replicate 14 0, memory_index := 0,
    gfx := [], delay_timer := 0, sound_timer := 0, stack := [],
    debug_enabled := false, debug_log := [] }

/-- Witness for C3: 200 + 100 = 300 wraps to 44 with carry flag 1. -/
theorem add_with_carry_flag_witness :
    (read_op_code addCarryWitnessState = some 0x8014) ∧
    ((0x8014 : Nat) &&& 0xF000 = 0x8000) ∧
    ((0x8014 : Nat) &&& 0x000F = 0x0004) ∧
    (((0x8014 : Nat) &&& 0x0F00) >>> 8 ≠ 15) ∧
    (addCarryWitnessState.register.length = 16) ∧
    (∃ s', cycle addCarryWitnessState (List.replicate 16 false) 0 =
        CycleResult.ok s' 0x8014 ∧
      s'.register.getD (((0x8014 : Nat) &&& 0x0F00) >>> 8) 0 = (200 + 100) % 256 ∧
      s'.register.getD 15 0 = (if 255 < 200 + 100 then 1 else 0)) :=
  ⟨rfl, by decide, by decide, by decide, by decide,
   add_with_carry_flag addCarryWitnessState (List.replicate 16 false) 0
     0x8014 200 100 rfl (by decide) (by decide) (by decide) (by decide)
     rfl rfl (by decide) (by decide)⟩

/-! ## C4: sub-with-borrow (0x8XY5) -/

/-- **C4.** For byte values `a` in VX and `b` in VY with X ≠ 15, executing
sub-with-borrow (0x8XY5) sets VX to the wrapping difference
`(a + 256 − b) % 256` (the two's-complement rendering of `(a − b) mod 256`)
and VF to 1 exactly when `a < b` (flag = 1 on borrow, the documented
non-canonical polarity), else 0. -/
theorem sub_with_borrow_flag (s : Chip8) (kp : List Bool) (r op a b : Nat)
    (hfetch : read_op_code s = some op)
    (hfam : op &&& 0xF000 = 0x8000) (hsub : op &&& 0x000F = 0x0005)
    (hX : (op &&& 0x0F00) >>> 8 ≠ 15)
    (hlen : s.register.length = 16)
    (ha : s.register.getD ((op &&& 0x0F00) >>> 8) 0 = a)
    (hb : s.register.getD ((op &&& 0x00F0) >>> 4) 0 = b)
    (ha' : a < 256) (hb' : b < 256) :
    ∃ s', cycle s kp r = CycleResult.ok s' op ∧
      s'.register.getD ((op &&& 0x0F00) >>> 8) 0 = (a + 256 - b) % 256 ∧
      s'.register.getD 15 0 = (if a < b then 1 else 0) := by
  have hexec : executeOp { s with op_code := op } kp r =
      ExecResult.ok (increase_program_counter
        (write_vf (write_vx { s with op_code := op }
            (overflowing_sub8 (read_vx { s with op_code := op })
              (read_vy { s with op_code := op })).1)
          (if (overflowing_sub8 (read_vx { s with op_code := op })
                (read_vy { s with op_code := op })).2 then 1 else 0)))
        "vx = vx - vy (with carry)" := by
    rw [executeOp_eq_family8 _ kp r hfam, execFamily8_5 _ hsub]
  obtain ⟨s', hcyc, _, _, _, hreg, _, _, _, _, _⟩ :=
    cycle_ok_of_executeOp s kp r op _ _ hfetch hexec
  refine ⟨s', hcyc, ?_, ?_⟩
  · rw [hreg]
    simp only [increase_program_counter_register]
    unfold Chip8.write_vf Chip8.write_vx Chip8.read_vx Chip8.read_vy
    simp only [ha, hb, overflowing_sub8]
    have := getD_set_set s.register ((op &&& 0x0F00) >>> 8) ((a + 256 - b) % 256)
      (if decide (a < b) then 1 else 0) hlen (nibble_lt_16 op) hX
    simpa using this.1
  · rw [hreg]
    simp only [increase_program_counter_register]
    unfold Chip8.write_vf Chip8.write_vx Chip8.read_vx Chip8.read_vy
    simp only [ha, hb, overflowing_sub8]
    have := getD_set_set s.register ((op &&& 0x0F00) >>> 8) ((a + 256 - b) % 256)
      (if decide (a < b) then 1 else 0) hlen (nibble_lt_16 op) hX
    rw [this.2]
    simp

/-- A machine about to execute 0x8015 (V0 := V0 − V1) with V0 = 5,
V1 = 100. -/
def subBorrowWitnessState : Chip8 :=
  { op_code := 0, program_counter := 0, memory := [0x80, 0x15],
    register := [5, 100] ++ List.replicate 14 0, memory_index := 0,
    gfx := [], delay_timer := 0, sound_timer := 0, stack := [],
    debug_enabled := false, debug_log := [] }

/-- Witness for C4: 5 − 100 wraps to 161 with borrow flag 1. -/
theorem sub_with_borrow_flag_witness :
    (read_op_code subBorrowWitnessState = some 0x8015) ∧
    ((0x8015 : Nat) &&& 0xF000 = 0x8000) ∧
    ((0x8015 : Nat) &&& 0x000F = 0x0005) ∧
    (((0x8015 : Nat) &&& 0x0F00) >>> 8 ≠ 15) ∧
    (subBorrowWitnessState.register.length = 16) ∧
    (∃ s', cycle subBorrowWitnessState (List.replicate 16 false) 0 =
        CycleResult.ok s' 0x8015 ∧
      s'.register.getD (((0x8015 : Nat) &&& 0x0F00) >>> 8) 0 =
        (5 + 256 - 100) % 256 ∧
      s'.register.getD 15 0 = (if 5 < 100 then 1 else 0)) :=
  ⟨rfl, by decide, by decide, by decide, by decide,
   sub_with_borrow_flag subBorrowWitnessState (List.replicate 16 false) 0
     0x8015 5 100 rfl (by decide) (by decide) (by decide) (by decide)
     rfl rfl (by decide) (by decide)⟩

/-! ## C6: register-dump / register-load round trip -/

/-- Pointwise description of the `register_dump` write loop over `0 .. k`:
cells `memory_index .. memory_index + k − 1` hold the first `k` registers,
every other cell is untouched. -/
theorem dumpFold_spec (regs : List Nat) (mi : Nat) (mem : List Nat) (k : Nat)
    (hb : mi + k ≤ mem.length) :
    ∃ mem', (List.range k).foldlM
        (fun m i => memWrite m (mi + i) (regs.getD i 0)) mem = some mem' ∧
      mem'.length = mem.length ∧
      (∀ j, mem'[j]? = if mi ≤ j ∧ j < mi + k
        then some (regs.getD (j - mi) 0) else mem[j]?) := by
  induction k with
  | zero =>
      refine ⟨mem, rfl, rfl, ?_⟩
      intro j
      rw [if_neg (by omega)]
  | succ k ih =>
      obtain ⟨mem1, hfold, hlen1, hget1⟩ := ih (by omega)
      have hwrite : memWrite mem1 (mi + k) (regs.getD k 0) =
          some (mem1.set (mi + k) (regs.getD k 0)) := by
        unfold memWrite
        rw [if_pos (by omega)]
      refine ⟨mem1.set (mi + k) (regs.getD k 0), ?_, ?_, ?_⟩
      · rw [List.range_succ, List.foldlM_append, hfold]
        show (memWrite mem1 (mi + k) (regs.getD k 0) >>= fun b => pure b) =
          some (mem1.set (mi + k) (regs.getD k 0))
        rw [hwrite]
        rfl
      · rw [List.length_set, hlen1]
      · intro j
        by_cases hj : j = mi + k
        · subst hj
          rw [List.getElem?_set_eq_of_lt _ (by omega), if_pos (by omega)]
          congr 2
          omega
        · rw [List.getElem?_set_ne (by omega), hget1 j]
          by_cases hj2 : mi ≤ j ∧ j < mi + k
          · rw [if_pos hj2, if_pos (by omega)]
          · rw [if_neg hj2, if_neg (by omega)]

/-- Pointwise description of a whole successful `register_dump`. -/
theorem register_dump_spec (s : Chip8) (X : Nat)
    (hb : s.memory_index + X < s.memory.length) :
    ∃ mem', register_dump s X = some { s with memory := mem' } ∧
      mem'.length = s.memory.length ∧
      (∀ j, mem'[j]? = if s.memory_index ≤ j ∧ j ≤ s.memory_index + X
        then some (s.register.getD (j - s.memory_index) 0) else s.memory[j]?) := by
  obtain ⟨mem1, hfold, hlen1, hget1⟩ :=
    dumpFold_spec s.register s.memory_index s.memory X (by omega)
  have hwrite : memWrite mem1 (s.memory_index + X) (s.register.getD X 0) =
      some (mem1.set (s.memory_index + X) (s.register.getD X 0)) := by
    unfold memWrite
    rw [if_pos (by omega)]
  refine ⟨mem1.set (s.memory_index + X) (s.register.getD X 0), ?_, ?_, ?_⟩
  · unfold register_dump
    rw [hfold]
    show (match memWrite mem1 (s.memory_index + X) (s.register.getD X 0) with
          | none => none
          | some mem2 => some { s with memory := mem2 }) =
      some { s with memory := mem1.set (s.memory_index + X) (s.register.getD X 0) }
    rw [hwrite]
  · rw [List.length_set, hlen1]
  · intro j
    by_cases hj : j = s.memory_index + X
    · subst hj
      rw [List.getElem?_set_eq_of_lt _ (by omega), if_pos (by omega)]
      congr 2
      omega
    · rw [List.getElem?_set_ne (by omega), hget1 j]
      by_cases hj2 : s.memory_index ≤ j ∧ j < s.memory_index + X
      · rw [if_pos hj2, if_pos (by omega)]
      · rw [if_neg hj2, if_neg (by omega)]

/-- Pointwise description of the `register_load` read loop over `0 .. k`. -/
theorem loadFold_spec (mem : List Nat) (mi : Nat) (regs : List Nat) (k : Nat)
    (hb : mi + k ≤ mem.length) (hk : k ≤ regs.length) :
    ∃ regs', (List.range k).foldlM
        (fun rg i => match mem[mi + i]? with
          | none => none
          | some v => some (rg.set i v)) regs = some regs' ∧
      regs'.length = regs.length ∧
      (∀ j, regs'[j]? = if j < k then mem[mi + j]? else regs[j]?) := by
  induction k with
  | zero => exact ⟨regs, rfl, rfl, fun j => by rw [if_neg (by omega)]⟩
  | succ k ih =>
      obtain ⟨regs1, hfold, hlen1, hget1⟩ := ih (by omega) (by omega)
      obtain ⟨v, hv⟩ : ∃ v, mem[mi + k]? = some v :=
        ⟨_, List.getElem?_eq_getElem (by omega)⟩
      refine ⟨regs1.set k v, ?_, ?_, ?_⟩
      · rw [List.range_succ, List.foldlM_append, hfold]
        show ((match mem[mi + k]? with
               | none => none
               | some v => some (regs1.set k v)) >>= fun b => pure b) =
          some (regs1.set k v)
        rw [hv]
        rfl
      · rw [List.length_set, hlen1]
      · intro j
        by_cases hj : j = k
        · subst hj
          rw [List.getElem?_set_eq_of_lt v (by omega), if_pos (by omega), hv]
        · rw [List.getElem?_set_ne (by omega), hget1 j]
          by_cases hj2 : j < k
          · rw [if_pos hj2, if_pos (by omega)]
          · rw [if_neg hj2, if_neg (by omega)]

/-- Pointwise description of a whole successful `register_load`. -/
theorem register_load_spec (s : Chip8) (X : Nat)
    (hb : s.memory_index + X < s.memory.length) (hX : X < s.register.length) :
    ∃ regs', register_load s X = some { s with register := regs' } ∧
      regs'.length = s.register.length ∧
      (∀ j, regs'[j]? = if j ≤ X then s.memory[s.memory_index + j]?
        else s.register[j]?) := by
  obtain ⟨regs1, hfold, hlen1, hget1⟩ :=
    loadFold_spec s.memory s.memory_index s.register X (by omega) (by omega)
  obtain ⟨v, hv⟩ : ∃ v, s.memory[s.memory_index + X]? = some v :=
    ⟨_, List.getElem?_eq_getElem (by omega)⟩
  refine ⟨regs1.set X v, ?_, ?_, ?_⟩
  · unfold register_load
    rw [hfold]
    show (match s.memory[s.memory_index + X]? with
          | none => none
          | some v => some { s with register := regs1.set X v }) =
      some { s with register := regs1.set X v }
    rw [hv]
  · rw [List.length_set, hlen1]
  · intro j
    by_cases hj : j = X
    · subst hj
      rw [List.getElem?_set_eq_of_lt v (by omega), if_pos (by omega), hv]
    · rw [List.getElem?_set_ne (by omega), hget1 j]
      by_cases hj2 : j < X
      · rw [if_pos hj2, if_pos (by omega)]
      · rw [if_neg hj2, if_neg (by omega)]

/-- Big-endian fetch characterization. -/
theorem read_op_code_eq (s : Chip8) (hi lo : Nat)
    (h1 : s.memory[s.program_counter]? = some hi)
    (h2 : s.memory[s.program_counter + 1]? = some lo) :
    read_op_code s = some ((hi <<< 8) ||| lo) := by
  unfold read_op_code
  rw [h1, h2]

/-- In-bounds `getElem?` as a `getD`. -/
theorem getElem?_eq_some_getD (l : List Nat) (j : Nat) (h : j < l.length) :
    l[j]? = some (l.getD j 0) := by
  rw [List.getElem?_eq_getElem h]
  congr 1
  rw [List.getD_eq_getElem?_getD, List.getElem?_eq_getElem h]
  rfl

/-- Operand fields of a `0xFX55` opcode built from bytes `0xF0+X`, `0x55`. -/
theorem opF55_masks (X : Nat) (hX : X < 16) :
    ((((0xF0 + X) <<< 8) ||| 0x55) &&& 0xF000 = 0xF000) ∧
    ((((0xF0 + X) <<< 8) ||| 0x55) &&& 0x00FF = 0x55) ∧
    ((((0xF0 + X) <<< 8) ||| 0x55) &&& 0x0F00) >>> 8 = X := by
  interval_cases X <;> exact ⟨by decide, by decide, by decide⟩

/-- Operand fields of a `0xFX65` opcode built from bytes `0xF0+X`, `0x65`. -/
theorem opF65_masks (X : Nat) (hX : X < 16) :
    ((((0xF0 + X) <<< 8) ||| 0x65) &&& 0xF000 = 0xF000) ∧
    ((((0xF0 + X) <<< 8) ||| 0x65) &&& 0x00FF = 0x65) ∧
    ((((0xF0 + X) <<< 8) ||| 0x65) &&& 0x0F00) >>> 8 = X := by
  interval_cases X <;> exact ⟨by decide, by decide, by decide⟩

/-- The `0x55` arm of the `0xFX__` family: register dump. -/
theorem execFamilyF_55 (s : Chip8) (kp : List Bool)
    (hsub : s.op_code &&& 0x00FF = 0x55) :
    execFamilyF s kp =
      match register_dump s ((s.op_code &&& 0x0F00) >>> 8) with
      | none => ExecResult.panic
      | some s' => ExecResult.ok (increase_program_counter s') "dump vy" := by
  unfold execFamilyF
  rw [hsub]
  norm_num

/-- The `0x65` arm of the `0xFX__` family: register load. -/
theorem execFamilyF_65 (s : Chip8) (kp : List Bool)
    (hsub : s.op_code &&& 0x00FF = 0x65) :
    execFamilyF s kp =
      match register_load s ((s.op_code &&& 0x0F00) >>> 8) with
      | none => ExecResult.panic
      | some s' => ExecResult.ok (increase_program_counter s') "load vx" := by
  unfold execFamilyF
  rw [hsub]
  norm_num

/-- **C6.** For every state and every X in 0-15 such that
`memory_index + X ≤ 4095` and the dumped range
`memory_index ..= memory_index + X` does not overlap the bytes of the next
fetched instruction, executing register-dump (0xFX55) and then register-load
(0xFX65) with the same `memory_index` and the same X leaves all 16 registers
equal to their values before the dump. -/
theorem register_dump_load_round_trip (s : Chip8) (kp kp2 : List Bool)
    (r r2 X : Nat) (hX : X < 16)
    (hlenr : s.register.length = 16)
    (hlenm : s.memory.length = 4096)
    (hf1a : s.memory[s.program_counter]? = some (0xF0 + X))
    (hf1b : s.memory[s.program_counter + 1]? = some 0x55)
    (hf2a : s.memory[s.program_counter + 2]? = some (0xF0 + X))
    (hf2b : s.memory[s.program_counter + 3]? = some 0x65)
    (hbound : s.memory_index + X ≤ 4095)
    (hdisj : ∀ i, i ≤ X →
      s.memory_index + i ≠ s.program_counter + 2 ∧
      s.memory_index + i ≠ s.program_counter + 3) :
    ∃ s1 s2 op1 op2, cycle s kp r = CycleResult.ok s1 op1 ∧
      cycle s1 kp2 r2 = CycleResult.ok s2 op2 ∧
      s2.register = s.register := by
  obtain ⟨hm1, hm2, hm3⟩ := opF55_masks X hX
  obtain ⟨hn1, hn2, hn3⟩ := opF65_masks X hX
  have hpc3 : s.program_counter + 3 < 4096 := by
    by_contra hcon
    rw [List.getElem?_eq_none (by omega)] at hf2b
    exact Option.noConfusion hf2b
  -- first cycle: the dump
  have hfetch1 : read_op_code s = some (((0xF0 + X) <<< 8) ||| 0x55) :=
    read_op_code_eq s _ _ hf1a hf1b
  obtain ⟨mem', hdumpEq, hlen', hget'⟩ :=
    register_dump_spec { s with op_code := ((0xF0 + X) <<< 8) ||| 0x55 } X
      (by show s.memory_index + X < s.memory.length; omega)
  have hget : ∀ j, mem'[j]? =
      if s.memory_index ≤ j ∧ j ≤ s.memory_index + X
      then some (s.register.getD (j - s.memory_index) 0) else s.memory[j]? :=
    hget'
  have hlenmem' : mem'.length = s.memory.length := hlen'
  have hexec1 : executeOp { s with op_code := ((0xF0 + X) <<< 8) ||| 0x55 } kp r =
      ExecResult.ok (increase_program_counter
        { s with op_code := ((0xF0 + X) <<< 8) ||| 0x55, memory := mem' })
        "dump vy" := by
    rw [executeOp_eq_familyF _ kp r hm1, execFamilyF_55 _ kp hm2]
    have hXr : (({ s with op_code := ((0xF0 + X) <<< 8) ||| 0x55 }).op_code
        &&& 0x0F00) >>> 8 = X := hm3
    rw [hXr, hdumpEq]
  obtain ⟨s1, hcyc1, hs1op, hs1pc, hs1mem, hs1reg, hs1mi, hs1gfx, hs1d, hs1s, hs1st⟩ :=
    cycle_ok_of_executeOp s kp r _ _ _ hfetch1 hexec1
  simp only [increase_program_counter_memory, increase_program_counter_register,
    increase_program_counter_memory_index,
    increase_program_counter_op_code] at hs1mem hs1reg hs1mi
  rw [increase_program_counter_pc] at hs1pc
  have hs1pc' : s1.program_counter = s.program_counter + 2 := by
    rw [hs1pc]
    show ({ s with op_code := ((0xF0 + X) <<< 8) ||| 0x55, memory := mem' }.program_counter
      + 2) % 65536 = s.program_counter + 2
    show (s.program_counter + 2) % 65536 = s.program_counter + 2
    exact Nat.mod_eq_of_lt (by omega)
  have hs1mem' : s1.memory = mem' := hs1mem
  have hs1reg' : s1.register = s.register := hs1reg
  have hs1mi' : s1.memory_index = s.memory_index := hs1mi
  -- second cycle: the load
  have hnover2 : ¬(s.memory_index ≤ s.program_counter + 2 ∧
      s.program_counter + 2 ≤ s.memory_index + X) := by
    rintro ⟨hA, hB⟩
    exact (hdisj (s.program_counter + 2 - s.memory_index) (by omega)).1 (by omega)
  have hnover3 : ¬(s.memory_index ≤ s.program_counter + 3 ∧
      s.program_counter + 3 ≤ s.memory_index + X) := by
    rintro ⟨hA, hB⟩
    exact (hdisj (s.program_counter + 3 - s.memory_index) (by omega)).2 (by omega)
  have hfetch2 : read_op_code s1 = some (((0xF0 + X) <<< 8) ||| 0x65) := by
    apply read_op_code_eq
    · rw [hs1mem', hs1pc', hget (s.program_counter + 2), if_neg hnover2]
      exact hf2a
    · rw [hs1mem', hs1pc', hget (s.program_counter + 2 + 1)]
      rw [show s.program_counter + 2 + 1 = s.program_counter + 3 from rfl]
      rw [if_neg hnover3]
      exact hf2b
  obtain ⟨regs', hloadEq, hlenRegs', hgetL⟩ :=
    register_load_spec { s1 with op_code := ((0xF0 + X) <<< 8) ||| 0x65 } X
      (by show s1.memory_index + X < s1.memory.length
          rw [hs1mi', hs1mem', hlenmem']
          omega)
      (by show X < s1.register.length
          rw [hs1reg', hlenr]
          omega)
  have hgetL' : ∀ j, regs'[j]? =
      if j ≤ X then s1.memory[s1.memory_index + j]? else s1.register[j]? := hgetL
  have hlenRegs : regs'.length = s1.register.length := hlenRegs'
  have hexec2 : executeOp { s1 with op_code := ((0xF0 + X) <<< 8) ||| 0x65 } kp2 r2 =
      ExecResult.ok (increase_program_counter
        { s1 with op_code := ((0xF0 + X) <<< 8) ||| 0x65, register := regs' })
        "load vx" := by
    rw [executeOp_eq_familyF _ kp2 r2 hn1, execFamilyF_65 _ kp2 hn2]
    have hXr : (({ s1 with op_code := ((0xF0 + X) <<< 8) ||| 0x65 }).op_code
        &&& 0x0F00) >>> 8 = X := hn3
    rw [hXr, hloadEq]
  obtain ⟨s2, hcyc2, _, _, _, hs2reg, _, _, _, _, _⟩ :=
    cycle_ok_of_executeOp s1 kp2 r2 _ _ _ hfetch2 hexec2
  simp only [increase_program_counter_register] at hs2reg
  have hs2reg' : s2.register = regs' := hs2reg
  -- the round trip: regs' = s.register
  have hfinal : regs' = s.register := by
    apply List.ext_getElem?
    intro j
    rw [hgetL' j]
    by_cases hj : j ≤ X
    · rw [if_pos hj, hs1mem', hs1mi', hget (s.memory_index + j),
        if_pos (by omega)]
      rw [getElem?_eq_some_getD s.register j (by omega)]
      congr 2
      omega
    · rw [if_neg hj, hs1reg']
  exact ⟨s1, s2, _, _, hcyc1, hcyc2, by rw [hs2reg', hfinal]⟩

/-- A machine with `0xF255` at address 0 and `0xF265` at address 2, dumping
V0-V2 to memory at index 100 and loading them back. -/
def dumpLoadWitnessState : Chip8 :=
  { op_code := 0, program_counter := 0,
    memory := [0xF2, 0x55, 0xF2, 0x65] ++ List.replicate 4092 0,
    register := [11, 22, 33] ++ List.replicate 13 0,
    memory_index := 100, gfx := [], delay_timer := 0, sound_timer := 0,
    stack := [], debug_enabled := false, debug_log := [] }

/-- Witness for C6 at a concrete dump/load program. -/
theorem register_dump_load_round_trip_witness :
    dumpLoadWitnessState.memory.length = 4096 ∧
    (∃ s1 s2 op1 op2,
      cycle dumpLoadWitnessState (List.replicate 16 false) 0 =
        CycleResult.ok s1 op1 ∧
      cycle s1 (List.replicate 16 false) 0 = CycleResult.ok s2 op2 ∧
      s2.register = dumpLoadWitnessState.register) := by
  have hlenm : dumpLoadWitnessState.memory.length = 4096 := by
    show ([0xF2, 0x55, 0xF2, 0x65] ++ List.replicate 4092 0).length = 4096
    rw [List.length_append, List.length_replicate]
    decide
  have hlenr : dumpLoadWitnessState.register.length = 16 := by
    show ([11, 22, 33] ++ List.replicate 13 0).length = 16
    rw [List.length_append, List.length_replicate]
    decide
  have hmem : ∀ i : Nat, i < 4 →
      dumpLoadWitnessState.memory[i]? = [0xF2, 0x55, 0xF2, 0x65][i]? := by
    intro i hi
    show ([0xF2, 0x55, 0xF2, 0x65] ++ List.replicate 4092 0)[i]? = _
    rw [List.getElem?_append, if_pos (by simpa using hi)]
  refine ⟨hlenm,
    register_dump_load_round_trip dumpLoadWitnessState
      (List.replicate 16 false) (List.replicate 16 false) 0 0 2
      (by decide) hlenr hlenm
      (by rw [show dumpLoadWitnessState.program_counter = 0 from rfl,
              hmem 0 (by decide)]
          decide)
      (by rw [show dumpLoadWitnessState.program_counter + 1 = 1 from rfl,
              hmem 1 (by decide)]
          decide)
      (by rw [show dumpLoadWitnessState.program_counter + 2 = 2 from rfl,
              hmem 2 (by decide)]
          decide)
      (by rw [show dumpLoadWitnessState.program_counter + 3 = 3 from rfl,
              hmem 3 (by decide)]
          decide)
      (by decide) ?_⟩
  intro i hi
  show 100 + i ≠ 0 + 2 ∧ 100 + i ≠ 0 + 3
  omega

/-! ## C5: drawing the same sprite twice -/

/-- Folding the XOR-toggle over a flat list of framebuffer locations. -/
def toggleAll (acc : List Bool × Nat) (locs : List Nat) : List Bool × Nat :=
  locs.foldl togglePoint acc

/-- The framebuffer locations hit by the set bits of a single sprite row. -/
def rowLocs (sprite x y yrow : Nat) : List Nat :=
  ((List.range 8).filter (fun c => 0 < sprite &&& (0x80 >>> c))).map
    (fun c => (x + c + (y + yrow) * 64) % 2048)

/-- The framebuffer locations hit by all set bits of the sprite
`memory[memory_index .. memory_index + height)`, in processing order. -/
def spriteLocs (mem : List Nat) (mi x y height : Nat) : List Nat :=
  (List.range height).flatMap (fun r => rowLocs (mem.getD (mi + r) 0) x y r)

/-- A guarded fold over a list is the plain fold over its filtered image. -/
theorem foldl_filter_map {α β γ : Type} (l : List α) (p : α → Prop)
    [DecidablePred p] (g : α → β) (f : γ → β → γ) (acc : γ) :
    l.foldl (fun a c => if p c then f a (g c) else a) acc =
      ((l.filter (fun c => decide (p c))).map g).foldl f acc := by
  induction l generalizing acc with
  | nil => rfl
  | cons c t ih =>
      by_cases hp : p c
      · simp only [List.foldl_cons, List.filter_cons, hp, decide_eq_true_eq, if_pos hp,
          List.map_cons]
        exact ih (f acc (g c))
      · simp only [List.foldl_cons, List.filter_cons, hp, decide_eq_true_eq, if_neg hp]
        exact ih acc

/-- One sprite row of `draw` is the toggle fold over its location list. -/
theorem drawRowFold_eq_toggleAll (sprite x y yrow : Nat) (acc : List Bool × Nat) :
    drawRowFold sprite x y yrow acc = toggleAll acc (rowLocs sprite x y yrow) := by
  unfold drawRowFold toggleAll rowLocs
  exact foldl_filter_map (List.range 8) (fun c => 0 < sprite &&& (0x80 >>> c))
    (fun c => (x + c + (y + yrow) * 64) % 2048) togglePoint acc

/-- Under the row-read bounds, the whole draw loop is the toggle fold over
the flat location list. -/
theorem drawRows_eq_toggleAll (mem : List Nat) (mi x y : Nat) (height : Nat)
    (acc : List Bool × Nat)
    (hb : ∀ r, r < height → mi + r < mem.length) :
    drawRows mem mi x y height acc =
      some (toggleAll acc (spriteLocs mem mi x y height)) := by
  induction height generalizing acc with
  | zero => rfl
  | succ h ih =>
      unfold drawRows at ih ⊢
      rw [List.range_succ, List.foldlM_append, ih acc (fun r hr => hb r (by omega))]
      obtain ⟨v, hv⟩ : ∃ v, mem[mi + h]? = some v :=
        ⟨_, List.getElem?_eq_getElem (hb h (by omega))⟩
      show ((match mem[mi + h]? with
             | none => none
             | some sprite => some (drawRowFold sprite x y h
                 (toggleAll acc (spriteLocs mem mi x y h)))) >>= fun b => pure b) =
        some (toggleAll acc (spriteLocs mem mi x y (h + 1)))
      rw [hv]
      show some (drawRowFold v x y h (toggleAll acc (spriteLocs mem mi x y h))) =
        some (toggleAll acc (spriteLocs mem mi x y (h + 1)))
      rw [drawRowFold_eq_toggleAll]
      congr 1
      unfold spriteLocs
      rw [List.range_succ, List.flatMap_append]
      unfold toggleAll
      rw [List.foldl_append]
      congr 2
      · show rowLocs v x y h = rowLocs (mem.getD (mi + h) 0) x y h ++ []
        rw [List.append_nil]
        congr 1
        rw [List.getD_eq_getElem?_getD, hv]
        rfl

/-- Toggling preserves the framebuffer length. -/
theorem toggleAll_fst_length (L : List Nat) (acc : List Bool × Nat) :
    (toggleAll acc L).1.length = acc.1.length := by
  induction L generalizing acc with
  | nil => rfl
  | cons l t ih =>
      show (toggleAll (togglePoint acc l) t).1.length = acc.1.length
      rw [ih (togglePoint acc l)]
      show (acc.1.set l _).length = acc.1.length
      exact List.length_set ..

/-- Pointwise effect of a toggle fold: a cell is flipped exactly when its
location occurs an odd number of times in the list. -/
theorem toggleAll_fst_getD (L : List Nat) (acc : List Bool × Nat) (i : Nat)
    (hL : ∀ l ∈ L, l < acc.1.length) :
    (toggleAll acc L).1.getD i false =
      if L.count i % 2 = 1 then !(acc.1.getD i false) else acc.1.getD i false := by
  induction L generalizing acc with
  | nil => rw [if_neg (by simp)]; rfl
  | cons l t ih =>
      have hlen : (togglePoint acc l).1.length = acc.1.length := List.length_set ..
      have hrec := ih (togglePoint acc l)
        (fun l' hl' => by rw [hlen]; exact hL l' (List.mem_cons_of_mem l hl'))
      show (toggleAll (togglePoint acc l) t).1.getD i false = _
      rw [hrec]
      by_cases hli : l = i
      · subst hli
        have hget : (togglePoint acc l).1.getD l false = !(acc.1.getD l false) := by
          show (acc.1.set l (!(acc.1.getD l false))).getD l false = _
          rw [List.getD_eq_getElem?_getD,
            List.getElem?_set_eq_of_lt _ (hL l (List.mem_cons_self l t))]
          rfl
        rw [hget]
        have hcount : (l :: t).count l = t.count l + 1 := by
          simp [List.count_cons]
        rw [hcount]
        rcases Nat.mod_two_eq_zero_or_one (t.count l) with h2 | h2
        · rw [if_neg (by omega), if_pos (by omega)]
        · rw [if_pos (by omega), if_neg (by omega), Bool.not_not]
      · have hget : (togglePoint acc l).1.getD i false = acc.1.getD i false := by
          show (acc.1.set l (!(acc.1.getD l false))).getD i false = _
          rw [List.getD_eq_getElem?_getD, List.getElem?_set_ne hli,
            ← List.getD_eq_getElem?_getD]
        have hcount : (l :: t).count i = t.count i := by
          simp [List.count_cons, hli]
        rw [hget, hcount]

/-- Once the collision flag is 1 it stays 1. -/
theorem toggleAll_vf_mono (L : List Nat) (acc : List Bool × Nat)
    (h : acc.2 = 1) : (toggleAll acc L).2 = 1 := by
  induction L generalizing acc with
  | nil => exact h
  | cons l t ih =>
      refine ih (togglePoint acc l) ?_
      show (if acc.1.getD l false = true then 1 else acc.2) = 1
      split
      · rfl
      · exact h

/-- If some toggled location is set when the fold starts, the collision flag
ends at 1. -/
theorem toggleAll_vf_one_of_mem (L : List Nat) (acc : List Bool × Nat)
    (l0 : Nat) (hmem : l0 ∈ L) (hset : acc.1.getD l0 false = true) :
    (toggleAll acc L).2 = 1 := by
  induction L generalizing acc with
  | nil => exact absurd hmem (List.not_mem_nil l0)
  | cons l t ih =>
      show (toggleAll (togglePoint acc l) t).2 = 1
      by_cases hgl : acc.1.getD l false = true
      · refine toggleAll_vf_mono t (togglePoint acc l) ?_
        show (if acc.1.getD l false = true then 1 else acc.2) = 1
        rw [if_pos hgl]
      · have hne : l ≠ l0 := fun he => hgl (he ▸ hset)
        rcases List.mem_cons.mp hmem with he | ht
        · exact absurd he.symm hne
        · refine ih (togglePoint acc l) ht ?_
          show (acc.1.set l (!(acc.1.getD l false))).getD l0 false = true
          rw [List.getD_eq_getElem?_getD, List.getElem?_set_ne hne,
            ← List.getD_eq_getElem?_getD]
          exact hset

/-- Every sprite location is a valid framebuffer index. -/
theorem spriteLocs_lt (mem : List Nat) (mi x y height : Nat) :
    ∀ l ∈ spriteLocs mem mi x y height, l < 2048 := by
  intro l hl
  unfold spriteLocs at hl
  rw [List.mem_flatMap] at hl
  obtain ⟨r, _, hr⟩ := hl
  unfold rowLocs at hr
  rw [List.mem_map] at hr
  obtain ⟨c, _, hc⟩ := hr
  rw [← hc]
  exact Nat.mod_lt _ (by omega)

/-- A bounds-respecting `draw` in closed form. -/
theorem draw_eq_of_bounds (s : Chip8) (x y height : Nat)
    (hb : ∀ r, r < height → s.memory_index + r < s.memory.length) :
    draw s x y height = some { s with
      gfx := (toggleAll (s.gfx, 0)
        (spriteLocs s.memory s.memory_index x y height)).1
      register := s.register.set 0x0F (toggleAll (s.gfx, 0)
        (spriteLocs s.memory s.memory_index x y height)).2 } := by
  unfold draw
  rw [drawRows_eq_toggleAll s.memory s.memory_index x y height (s.gfx, 0) hb]
  rfl

/-- `toggleAll` on an explicit pair: length. -/
theorem toggleAll_pair_length (L : List Nat) (g : List Bool) (v : Nat) :
    (toggleAll (g, v) L).1.length = g.length :=
  toggleAll_fst_length ..

/-- `toggleAll` on an explicit pair: pointwise cell value. -/
theorem toggleAll_pair_getD (L : List Nat) (g : List Bool) (v i : Nat)
    (hL : ∀ l ∈ L, l < g.length) :
    (toggleAll (g, v) L).1.getD i false =
      if L.count i % 2 = 1 then !(g.getD i false) else g.getD i false :=
  toggleAll_fst_getD L (g, v) i hL

/-- Toggling the same location list twice restores every cell. -/
theorem toggleAll_involutive_getD (L : List Nat) (g : List Bool)
    (v1 v2 i : Nat) (hL : ∀ l ∈ L, l < g.length) :
    (toggleAll ((toggleAll (g, v1) L).1, v2) L).1.getD i false =
      g.getD i false := by
  rw [toggleAll_pair_getD L ((toggleAll (g, v1) L).1) v2 i
      (fun l hl => by rw [toggleAll_pair_length]; exact hL l hl),
    toggleAll_pair_getD L g v1 i hL]
  rcases Nat.mod_two_eq_zero_or_one (L.count i) with h2 | h2
  · rw [if_neg (by omega), if_neg (by omega)]
  · rw [if_pos (by omega), if_pos (by omega), Bool.not_not]

/-- **C5.** If `memory_index + height − 1 ≤ 4095`, drawing the same sprite
twice at the same coordinates with the same `memory_index` (the sprite bytes
are untouched by `draw`) restores the framebuffer to its state before the
first draw, and the second draw sets VF to 1 whenever some set sprite bit
targets a cell that is lit before the second draw. -/
theorem draw_twice_restores (s : Chip8) (x y height : Nat)
    (hgfx : s.gfx.length = 2048)
    (hmem : s.memory.length = 4096)
    (hreg : s.register.length = 16)
    (hbound : s.memory_index + height - 1 ≤ 4095) :
    ∃ s1 s2, draw s x y height = some s1 ∧ draw s1 x y height = some s2 ∧
      s2.gfx = s.gfx ∧
      ((∃ loc ∈ spriteLocs s.memory s.memory_index x y height,
          s1.gfx.getD loc false = true) →
        s2.register.getD 15 0 = 1) := by
  have hb : ∀ r, r < height → s.memory_index + r < s.memory.length := by
    intro r hr
    rw [hmem]
    omega
  have hd1 := draw_eq_of_bounds s x y height hb
  have hd2 := draw_eq_of_bounds
    { s with
      gfx := (toggleAll (s.gfx, 0)
        (spriteLocs s.memory s.memory_index x y height)).1
      register := s.register.set 0x0F (toggleAll (s.gfx, 0)
        (spriteLocs s.memory s.memory_index x y height)).2 }
    x y height hb
  refine ⟨_, _, hd1, hd2, ?_, ?_⟩
  · show (toggleAll ((toggleAll (s.gfx, 0)
        (spriteLocs s.memory s.memory_index x y height)).1, 0)
        (spriteLocs s.memory s.memory_index x y height)).1 = s.gfx
    apply List.ext_getElem
    · rw [toggleAll_pair_length, toggleAll_pair_length]
    · intro i h1 h2
      rw [← List.getD_eq_getElem _ false h1, ← List.getD_eq_getElem _ false h2]
      exact toggleAll_involutive_getD _ s.gfx 0 0 i
        (fun l hl => by
          rw [hgfx]
          exact spriteLocs_lt s.memory s.memory_index x y height l hl)
  · rintro ⟨loc, hlocmem, hlocset⟩
    show ((s.register.set 0x0F (toggleAll (s.gfx, 0)
        (spriteLocs s.memory s.memory_index x y height)).2).set 0x0F
        (toggleAll ((toggleAll (s.gfx, 0)
          (spriteLocs s.memory s.memory_index x y height)).1, 0)
          (spriteLocs s.memory s.memory_index x y height)).2).getD 15 0 = 1
    rw [List.getD_eq_getElem?_getD,
      List.getElem?_set_eq_of_lt _ (by rw [List.length_set, hreg]; omega)]
    show (toggleAll ((toggleAll (s.gfx, 0)
        (spriteLocs s.memory s.memory_index x y height)).1, 0)
        (spriteLocs s.memory s.memory_index x y height)).2 = 1
    exact toggleAll_vf_one_of_mem _ _ loc hlocmem hlocset

/-- A machine with a one-byte sprite `0x80` at address 0 and a blank
framebuffer. -/
def drawTwiceWitnessState : Chip8 :=
  { op_code := 0, program_counter := 0,
    memory := [0x80] ++ List.replicate 4095 0,
    register := List.replicate 16 0,
    memory_index := 0, gfx := List.replicate 2048 false,
    delay_timer := 0, sound_timer := 0, stack := [],
    debug_enabled := false, debug_log := [] }

/-- Witness for C5 at a concrete one-row sprite. -/
theorem draw_twice_restores_witness :
    drawTwiceWitnessState.gfx.length = 2048 ∧
    (∃ s1 s2, draw drawTwiceWitnessState 0 0 1 = some s1 ∧
      draw s1 0 0 1 = some s2 ∧
      s2.gfx = drawTwiceWitnessState.gfx ∧
      ((∃ loc ∈ spriteLocs drawTwiceWitnessState.memory
          drawTwiceWitnessState.memory_index 0 0 1,
          s1.gfx.getD loc false = true) →
        s2.register.getD 15 0 = 1)) := by
  have hgfx : drawTwiceWitnessState.gfx.length = 2048 := by
    show (List.replicate 2048 false).length = 2048
    rw [List.length_replicate]
  have hmem : drawTwiceWitnessState.memory.length = 4096 := by
    show ([0x80] ++ List.replicate 4095 0).length = 4096
    rw [List.length_append, List.length_replicate]
    decide
  have hreg : drawTwiceWitnessState.register.length = 16 := by
    show (List.replicate 16 0).length = 16
    rw [List.length_replicate]
  exact ⟨hgfx,
    draw_twice_restores drawTwiceWitnessState 0 0 1 hgfx hmem hreg (by decide)⟩
